/-
  Verification of the Healthcare-Appointment-Booking-API repository
  (conversational booking assistant: stage-driven chat state machine,
  availability resolution, booking-conflict checking).

  Shallow embedding conventions:
  * Python dicts/JSON-ish dynamic values are modelled by `PyVal`;
    dicts are association lists in insertion order.
  * Redis session hashes are association lists keyed by chat id;
    the durable MongoDB stores are association lists / `List Booking`.
  * Invoking an MCP tool through `run_tool` is modelled as calling the
    underlying tool function; `tool.run(params)` hands the router a fastmcp
    `ToolResult` OBJECT (content blocks plus `structured_content` holding
    the tool's returned dict), never the raw dict — see `toolVal`.  A
    collaborator exception inside the tool makes `run_tool` return `None`
    (modelled as `Option _` with `none`), exactly as the source's
    `run_tool` catches every exception and returns `None`.
  * Machine-independent things the source gets from libraries
    (`datetime` weekday arithmetic, `json.loads`) are modelled by
    executable Lean definitions of the proleptic Gregorian calendar and a
    small JSON parser.
-/
import Mathlib

namespace Booker

/-! ## Python-style dynamic values -/

/-- Dynamic Python value as it flows through the tool/response plumbing.
`dict` keeps insertion order, as Python dicts do.  `text` models a
`fastmcp` `TextContent` object, `obj` an arbitrary object exposing
`__dict__`.  `float` carries the source lexeme of a JSON floating-point
literal (`1.5`, `2e10`, `NaN`, `Infinity`, `-Infinity`): no modelled code
path ever computes with or stringifies the numeric value — the only thing
consulted is containment (`"recommendation" in 1.5` raises `TypeError`)
and, in principle, truthiness, which the lexeme determines. -/
inductive PyVal where
  | none
  | str (s : String)
  | int (n : Int)
  | bool (b : Bool)
  | list (xs : List PyVal)
  | dict (kvs : List (String × PyVal))
  | text (s : String)
  | obj (kvs : List (String × PyVal))
  | float (lit : String)

/-- Whether a float literal denotes `0.0`: every mantissa digit is `0`
(`NaN`/`Infinity` contain other letters, so they count truthy, as in
Python). -/
def floatIsZero (lit : String) : Bool :=
  (lit.data.takeWhile fun c => c ≠ 'e' ∧ c ≠ 'E').all fun c => c = '0' ∨ c = '.' ∨ c = '-'

/-- Python truthiness (`if v:`). -/
def pyTruthy : PyVal → Bool
  | .none => false
  | .str s => s ≠ ""
  | .int n => n ≠ 0
  | .bool b => b
  | .list xs => ¬ xs.isEmpty
  | .dict kvs => ¬ kvs.isEmpty
  | .text _ => true
  | .obj _ => true
  | .float lit => ¬ floatIsZero lit

/-- Python `str(v)` rendering, for the few spots the source stringifies a
value (`str(tool_response)`, f-string interpolation).  A parsed float is
rendered as its lexeme; no modelled path stringifies one. -/
def pyStr : PyVal → String
  | .none => "None"
  | .str s => s
  | .int n => toString n
  | .bool b => if b then "True" else "False"
  | .list _ => "[...]"
  | .dict _ => "\x7b...\x7d"
  | .text s => s
  | .obj _ => "<object>"
  | .float lit => lit

/-- `d.get(k)` on a dict given as an association list (first binding wins,
like a Python dict, whose keys are unique anyway). -/
def dictGet : List (String × PyVal) → String → Option PyVal
  | [], _ => Option.none
  | kv :: t, k => if kv.1 = k then some kv.2 else dictGet t k

/-- `d.get(k, default)`. -/
def dictGetD (d : List (String × PyVal)) (k : String) (v : PyVal) : PyVal :=
  (dictGet d k).getD v

/-- Set one key of a hash, Redis `HSET` style: overwrite in place if the key
exists, append otherwise. -/
def setKey (h : List (String × PyVal)) (kv : String × PyVal) : List (String × PyVal) :=
  if h.any (fun p => p.1 = kv.1) then
    h.map (fun p => if p.1 = kv.1 then (p.1, kv.2) else p)
  else h ++ [kv]

/-- Redis `HSET key mapping={...}`: merge every field of the mapping into the
hash. -/
def hashSet (h : List (String × PyVal)) (kvs : List (String × PyVal)) : List (String × PyVal) :=
  kvs.foldl setKey h

/-! ## Proleptic Gregorian calendar (model of `datetime`) -/

def isLeap (y : Nat) : Bool := (y % 4 = 0 ∧ y % 100 ≠ 0) ∨ y % 400 = 0

/-- Length of month `m` (1–12) of year `y`; 0 for out-of-range months. -/
def daysInMonth (y m : Nat) : Nat :=
  if m = 2 then (if isLeap y then 29 else 28)
  else [0, 31, 28, 31, 30, 31, 30, 31, 31, 30, 31, 30, 31].getD m 0

def daysInYear (y : Nat) : Nat := if isLeap y then 366 else 365

/-- Days in year `y` strictly before the first day of month `m`. -/
def daysBeforeMonth (y : Nat) : Nat → Nat
  | 0 => 0
  | m + 1 => daysBeforeMonth y m + daysInMonth y m

/-- Days strictly before January 1 of year `y` counting from year 1
(Gregorian closed form; the subtraction cannot underflow since
`n / 4 ≥ n / 100`). -/
def daysBeforeYear (y : Nat) : Nat :=
  let n := y - 1
  365 * n + n / 4 + n / 400 - n / 100

structure Date where
  year : Nat
  month : Nat
  day : Nat
deriving DecidableEq, Repr

/-- A calendar-valid date (year ≥ 1, month 1–12, day within the month). -/
def Date.Valid (d : Date) : Prop :=
  1 ≤ d.year ∧ 1 ≤ d.month ∧ d.month ≤ 12 ∧ 1 ≤ d.day ∧ d.day ≤ daysInMonth d.year d.month

instance (d : Date) : Decidable d.Valid := by unfold Date.Valid; infer_instance

/-- Rata die: 0001-01-01 has number 1 (a Monday). -/
def rataDie (d : Date) : Nat :=
  daysBeforeYear d.year + daysBeforeMonth d.year d.month + d.day

/-- Weekday index, 0 = Monday … 6 = Sunday (the order of the source's
`weekdays_map`). -/
def weekdayIdx (d : Date) : Nat := (rataDie d + 6) % 7

def weekdaysMap : List String :=
  ["Monday", "Tuesday", "Wednesday", "Thursday", "Friday", "Saturday", "Sunday"]

/-- `dt.strftime("%A")`. -/
def weekdayName (d : Date) : String := weekdaysMap.getD (weekdayIdx d) ""

/-- Move to the next calendar day (`dt + timedelta(days=1)`). -/
def nextDay (d : Date) : Date :=
  if d.day < daysInMonth d.year d.month then ⟨d.year, d.month, d.day + 1⟩
  else if d.month < 12 then ⟨d.year, d.month + 1, 1⟩
  else ⟨d.year + 1, 1, 1⟩

/-- `dt + timedelta(days=n)`. -/
def addDays (d : Date) : Nat → Date
  | 0 => d
  | n + 1 => nextDay (addDays d n)

/-- `d.strftime("%Y-%m-%d")` with zero padding. -/
def pad2 (n : Nat) : String := if n < 10 then "0" ++ toString n else toString n

def pad4 (n : Nat) : String :=
  if n < 10 then "000" ++ toString n
  else if n < 100 then "00" ++ toString n
  else if n < 1000 then "0" ++ toString n
  else toString n

def fmtDate (d : Date) : String := pad4 d.year ++ "-" ++ pad2 d.month ++ "-" ++ pad2 d.day

/-! ## String primitives

Structural (kernel-computable) replacements for the handful of string
operations the source gets from the Python runtime. -/

/-- `str.lower()`. -/
def strLower (s : String) : String := String.mk (s.data.map Char.toLower)

/-- `str.strip()`. -/
def pyStrip (s : String) : String :=
  String.mk (((s.data.dropWhile Char.isWhitespace).reverse.dropWhile Char.isWhitespace).reverse)

/-- Chunker behind `str.split()` (split on whitespace runs, no empties). -/
def splitWsAux : List Char → List Char → List String
  | [], acc => if acc.isEmpty then [] else [String.mk acc.reverse]
  | c :: t, acc =>
    if c.isWhitespace then
      if acc.isEmpty then splitWsAux t [] else String.mk acc.reverse :: splitWsAux t []
    else splitWsAux t (c :: acc)

/-- `", ".join(xs)`-style joining. -/
def strJoin (sep : String) : List String → String
  | [] => ""
  | [x] => x
  | x :: xs => x ++ sep ++ strJoin sep xs

/-- Numeric value of a digit run. -/
def digitsToNat (l : List Char) : Nat := l.foldl (fun n c => n * 10 + (c.toNat - 48)) 0

/-! ## Character/regex machinery

The source uses a handful of fixed regular expressions; each one is
modelled by a dedicated scanning function over `List Char`, with the
regex it implements recorded in its doc comment. -/

/-- Python `\w` (ASCII fragment). -/
def isWordCh (c : Char) : Bool := c.isAlphanum || c = '_'

def isWordAt (l : List Char) (i : Nat) : Bool := (l.get? i).elim false isWordCh

/-- `\b` at position `i` (between characters `i-1` and `i`). -/
def boundaryAt (l : List Char) (i : Nat) : Bool :=
  (if i = 0 then false else isWordAt l (i - 1)) != isWordAt l i

/-- Case-insensitive literal match of `pat` at position `i`. -/
def matchAtCI : List Char → List Char → Nat → Bool
  | [], _, _ => true
  | p :: ps, l, i =>
    match l.get? i with
    | some c => (p.toLower = c.toLower) && matchAtCI ps l (i + 1)
    | Option.none => false

/-- Like `matchAtCI` but a `'.'` in the pattern matches any character —
used for the f-string-built patterns `fr"\b{p['name']}\b"` in which a dot
inside a professional's name acts as the regex wildcard. -/
def matchAtDotCI : List Char → List Char → Nat → Bool
  | [], _, _ => true
  | p :: ps, l, i =>
    match l.get? i with
    | some c => (p = '.' || p.toLower = c.toLower) && matchAtDotCI ps l (i + 1)
    | Option.none => false

/-- `\b pat \b` matches at `i` (pattern may use `'.'` as wildcard). -/
def wordBoundedAt (pat l : List Char) (i : Nat) : Bool :=
  matchAtDotCI pat l i && boundaryAt l i && boundaryAt l (i + pat.length)

/-- `re.search(fr"\b{w}\b", s, re.IGNORECASE)` succeeds. -/
def containsWordCI (s w : String) : Bool :=
  (List.range (s.data.length + 1)).any (wordBoundedAt w.data s.data)

/-- `re.search(r"(alt1|alt2|...)", s, re.IGNORECASE)`: leftmost position,
alternatives tried in order at each position; returns the matched text
(in the input's own case, as `group(1)` does). -/
def searchAltCI (alts : List String) (s : String) : Option String :=
  (List.range (s.data.length + 1)).findSome? fun i =>
    alts.findSome? fun a =>
      if matchAtCI a.data s.data i then some (String.mk ((s.data.drop i).take a.data.length))
      else Option.none

/-- Case-insensitive `re.search` for a literal (metacharacter-free)
pattern. -/
def strContainsCI (s sub : String) : Bool :=
  (List.range (s.data.length + 1)).any (matchAtCI sub.data s.data)

def isDigitAt (l : List Char) (i : Nat) : Bool := (l.get? i).elim false Char.isDigit

def digitsAt (l : List Char) (i n : Nat) : Bool :=
  (List.range n).all fun j => isDigitAt l (i + j)

def isCharAt (l : List Char) (i : Nat) (c : Char) : Bool := l.get? i = some c

/-- `re.search(r"\b(\d{4}-\d{2}-\d{2})\b", s)`: matched text. -/
def scanDate (s : String) : Option String :=
  let l := s.data
  let shape : Nat → Bool := fun i =>
    digitsAt l i 4 && isCharAt l (i + 4) '-' && digitsAt l (i + 5) 2 &&
    isCharAt l (i + 7) '-' && digitsAt l (i + 8) 2 &&
    boundaryAt l i && boundaryAt l (i + 10)
  ((List.range (l.length + 1)).find? shape).map fun i => String.mk ((l.drop i).take 10)

/-- `re.search(r"\b(\d{2}:\d{2})\b", s)`: matched text. -/
def scanTime (s : String) : Option String :=
  let l := s.data
  let shape : Nat → Bool := fun i =>
    digitsAt l i 2 && isCharAt l (i + 2) ':' && digitsAt l (i + 3) 2 &&
    boundaryAt l i && boundaryAt l (i + 5)
  ((List.range (l.length + 1)).find? shape).map fun i => String.mk ((l.drop i).take 5)

/-- `re.search(r"\b\d{10}\b", s)`: matched text. -/
def scanContact (s : String) : Option String :=
  let l := s.data
  let shape : Nat → Bool := fun i => digitsAt l i 10 && boundaryAt l i && boundaryAt l (i + 10)
  ((List.range (l.length + 1)).find? shape).map fun i => String.mk ((l.drop i).take 10)

/-- Maximal run of characters satisfying `p` starting at index `i`. -/
def runFrom (p : Char → Bool) (l : List Char) (i : Nat) : List Char :=
  (l.drop i).takeWhile p

/-- Python `str.capitalize()`: first character upper-cased, rest lower-cased. -/
def pyCapitalize (s : String) : String :=
  match s.data with
  | [] => ""
  | c :: t => String.mk (c.toUpper :: t.map Char.toLower)

/-- `re.search(r"(?:my name is|i am)\s+([A-Za-z]+)", s, re.IGNORECASE)`:
captured group 1. -/
def scanName (s : String) : Option String :=
  let l := s.data
  (List.range (l.length + 1)).findSome? fun i =>
    ["my name is", "i am"].findSome? fun pat =>
      if matchAtCI pat.data l i then
        let j := i + pat.length
        let k := (runFrom Char.isWhitespace l j).length
        if 1 ≤ k then
          let r := runFrom Char.isAlpha l (j + k)
          if r.isEmpty then Option.none else some (String.mk r)
        else Option.none
      else Option.none

/-- Completion `\s*(?:years|yo|y/o)?\b` at position `j`
(for the age regex; existence of a completing suffix). -/
def ageTailOk (l : List Char) (j : Nat) : Bool :=
  (List.range ((runFrom Char.isWhitespace l j).length + 1)).any fun k =>
    (["years", "yo", "y/o"].any fun suf =>
      matchAtCI suf.data l (j + k) && boundaryAt l (j + k + suf.length))
    || boundaryAt l (j + k)

/-- `re.search(r"\b(\d{1,3})\s*(?:years|yo|y/o)?\b", s.lower())`:
captured digit group, as the integer the source passes to `int(...)`.
The digit group is greedy: 3 digits are preferred over 2 over 1. -/
def scanAge (s : String) : Option Nat :=
  let l := (strLower s).data
  (List.range (l.length + 1)).findSome? fun i =>
    if boundaryAt l i then
      [3, 2, 1].findSome? fun L =>
        if digitsAt l i L && ageTailOk l (i + L) then
          some (digitsToNat ((l.drop i).take L))
        else Option.none
    else Option.none

def isEmailCh (c : Char) : Bool := isWordCh c || c = '.' || c = '-'

/-- Rightmost `k ≥ 1` such that `D[k] = '.'` and `D[k+1]` is a word
character: the dot the greedy `[\w\.-]+\.\w+` match settles on. -/
def domainDotIdx (D : List Char) : Option Nat :=
  (List.range D.length).reverse.find? fun k =>
    decide (1 ≤ k) && isCharAt D k '.' && (D.get? (k + 1)).elim false isWordCh

/-- `re.search(r"[\w\.-]+@[\w\.-]+\.\w+", s)`: matched text. -/
def scanEmail (s : String) : Option String :=
  let l := s.data
  (List.range l.length).findSome? fun i =>
    let run := runFrom isEmailCh l i
    if run.isEmpty then Option.none
    else if isCharAt l (i + run.length) '@' then
      let dom := runFrom isEmailCh l (i + run.length + 1)
      match domainDotIdx dom with
      | some k =>
        some (String.mk (run ++ '@' :: dom.take k ++ '.' :: runFrom isWordCh dom (k + 1)))
      | Option.none => Option.none
    else Option.none

/-- `re.match(r"^[\w\.-]+@[\w\.-]+\.\w+$", email)` succeeds
(the whole string is one email). -/
def emailFullMatch (s : String) : Bool :=
  let l := s.data
  let loc := l.takeWhile (· ≠ '@')
  let rest := l.drop loc.length
  match rest with
  | '@' :: dom =>
    ¬ loc.isEmpty && loc.all isEmailCh && ¬ dom.isEmpty && dom.all isEmailCh &&
    ((List.range dom.length).any fun k =>
      decide (1 ≤ k) && isCharAt dom k '.' &&
      decide (k + 1 < dom.length) && (dom.drop (k + 1)).all isWordCh)
  | _ => false

/-- `len(re.sub(r"\D", "", contact))`: number of digit characters. -/
def digitCount (s : String) : Nat := (s.data.filter Char.isDigit).length

/-- Python `int(w)` on a stripped token: optional sign then digits. -/
def pyInt (w : String) : Option Int :=
  let l := (pyStrip w).data
  let core : List Char → Option Int := fun ds =>
    if ds.isEmpty || ¬ ds.all Char.isDigit then Option.none
    else some (Int.ofNat (digitsToNat ds))
  match l with
  | '-' :: t => (core t).map (fun n => -n)
  | '+' :: t => core t
  | t => core t

/-- Python `s.split()`: split on whitespace runs, dropping empties. -/
def pySplitWs (s : String) : List String :=
  splitWsAux s.data []

/-- Python `list.index(x)` (only used where the element is present);
returns list length when absent. -/
def pyIndexOf (l : List String) (x : String) : Nat := l.findIdx (· = x)

/-- Exact (case-sensitive) literal match of `pat` at position `i`. -/
def matchAtEq : List Char → List Char → Nat → Bool
  | [], _, _ => true
  | p :: ps, l, i =>
    match l.get? i with
    | some c => (p = c) && matchAtEq ps l (i + 1)
    | Option.none => false

/-- Python `sub in s` for strings. -/
def strContains (s sub : String) : Bool :=
  (List.range (s.data.length + 1)).any (matchAtEq sub.data s.data)

/-! ## `json.loads` model

An executable model of CPython's default `json.loads`: objects (duplicate
keys keep the first position with the last value, like a Python dict),
arrays, strings with the full escape repertoire (strict mode: an unescaped
control character is an error), integers with JSON's no-leading-zero rule,
floats (fraction and/or exponent, plus the non-standard `NaN` / `Infinity`
/ `-Infinity` CPython accepts), `true`/`false`/`null`.  Anything else is a
parse failure (`JSONDecodeError`). -/

def jsonWs (c : Char) : Bool := c = ' ' || c = '\t' || c = '\n' || c = '\r'

def skipWs (l : List Char) : List Char := l.dropWhile jsonWs

/-- Value of a hexadecimal digit. -/
def hexVal (c : Char) : Option Nat :=
  if '0' ≤ c ∧ c ≤ '9' then some (c.toNat - 48)
  else if 'a' ≤ c ∧ c ≤ 'f' then some (c.toNat - 87)
  else if 'A' ≤ c ∧ c ≤ 'F' then some (c.toNat - 55)
  else Option.none

/-- Four hex digits (the `XXXX` of a `\uXXXX` escape). -/
def hex4 : List Char → Option (Nat × List Char)
  | a :: b :: c :: d :: r => do
    let va ← hexVal a
    let vb ← hexVal b
    let vc ← hexVal c
    let vd ← hexVal d
    return (((va * 16 + vb) * 16 + vc) * 16 + vd, r)
  | _ => Option.none

/-- Characters of a JSON string after the opening quote, decoding the
escapes `json.loads` accepts; a `\uXXXX` high surrogate immediately
followed by its `\uXXXX` low surrogate combines into one code point.  A
lone surrogate — which CPython keeps as a lone surrogate code unit — is not
representable in a Lean `String` and comes out as `NUL` (`Char.ofNat` of an
invalid scalar); no modelled code path inspects such a character. -/
def parseStringChars : Nat → List Char → Option (List Char × List Char)
  | 0, _ => Option.none
  | fuel + 1, l =>
    match l with
    | [] => Option.none
    | '"' :: r => some ([], r)
    | '\\' :: e :: r =>
      match e with
      | '"' => (parseStringChars fuel r).map fun p => ('"' :: p.1, p.2)
      | '\\' => (parseStringChars fuel r).map fun p => ('\\' :: p.1, p.2)
      | '/' => (parseStringChars fuel r).map fun p => ('/' :: p.1, p.2)
      | 'b' => (parseStringChars fuel r).map fun p => (Char.ofNat 8 :: p.1, p.2)
      | 'f' => (parseStringChars fuel r).map fun p => (Char.ofNat 12 :: p.1, p.2)
      | 'n' => (parseStringChars fuel r).map fun p => ('\n' :: p.1, p.2)
      | 'r' => (parseStringChars fuel r).map fun p => ('\r' :: p.1, p.2)
      | 't' => (parseStringChars fuel r).map fun p => ('\t' :: p.1, p.2)
      | 'u' =>
        match hex4 r with
        | some (n, r2) =>
          if 0xD800 ≤ n ∧ n ≤ 0xDBFF then
            match r2 with
            | '\\' :: 'u' :: r3 =>
              match hex4 r3 with
              | some (m, r4) =>
                if 0xDC00 ≤ m ∧ m ≤ 0xDFFF then
                  (parseStringChars fuel r4).map fun p =>
                    (Char.ofNat (0x10000 + (n - 0xD800) * 0x400 + (m - 0xDC00)) :: p.1, p.2)
                else (parseStringChars fuel r2).map fun p => (Char.ofNat n :: p.1, p.2)
              | Option.none => (parseStringChars fuel r2).map fun p => (Char.ofNat n :: p.1, p.2)
            | _ => (parseStringChars fuel r2).map fun p => (Char.ofNat n :: p.1, p.2)
          else (parseStringChars fuel r2).map fun p => (Char.ofNat n :: p.1, p.2)
        | Option.none => Option.none
      | _ => Option.none
    | c :: r =>
      if c.toNat < 32 then Option.none
      else (parseStringChars fuel r).map fun p => (c :: p.1, p.2)

/-- Digits of a JSON number's integer part (no leading zero: `01` is a
`JSONDecodeError`). -/
def scanIntPart (l : List Char) : Option (List Char × List Char) :=
  match l with
  | '0' :: r => if (r.headD ' ').isDigit then Option.none else some (['0'], r)
  | c :: _ =>
    if c.isDigit then some (l.takeWhile Char.isDigit, l.dropWhile Char.isDigit)
    else Option.none
  | [] => Option.none

/-- Optional fraction part (`.` must be followed by at least one digit). -/
def scanFracPart : List Char → Option (List Char × List Char)
  | '.' :: r =>
    let ds := r.takeWhile Char.isDigit
    if ds.isEmpty then Option.none else some ('.' :: ds, r.drop ds.length)
  | l => some ([], l)

/-- Optional exponent part (`e`/`E`, optional sign, at least one digit). -/
def scanExpPart : List Char → Option (List Char × List Char)
  | c :: r =>
    if c = 'e' ∨ c = 'E' then
      match r with
      | s :: r2 =>
        if s = '+' ∨ s = '-' then
          let ds := r2.takeWhile Char.isDigit
          if ds.isEmpty then Option.none
          else some (c :: s :: ds, r2.drop ds.length)
        else
          let ds := r.takeWhile Char.isDigit
          if ds.isEmpty then Option.none else some (c :: ds, r.drop ds.length)
      | [] => Option.none
    else some ([], c :: r)
  | [] => some ([], [])

/-- A JSON number starting at `l` (sign already consumed): an `int` when it
has neither fraction nor exponent, otherwise a `float` carrying the lexeme. -/
def scanNumber (l : List Char) (neg : Bool) : Option (PyVal × List Char) :=
  match scanIntPart l with
  | Option.none => Option.none
  | some (ip, r1) =>
    match scanFracPart r1 with
    | Option.none => Option.none
    | some (fp, r2) =>
      match scanExpPart r2 with
      | Option.none => Option.none
      | some (ep, r3) =>
        if fp.isEmpty ∧ ep.isEmpty then
          some (.int (if neg then -(digitsToNat ip : Int) else (digitsToNat ip : Int)), r3)
        else
          some (.float (String.mk ((if neg then ['-'] else []) ++ ip ++ fp ++ ep)), r3)

mutual

def parseVal : Nat → List Char → Option (PyVal × List Char)
  | 0, _ => Option.none
  | fuel + 1, l =>
    match skipWs l with
    | [] => Option.none
    | '"' :: t =>
      (parseStringChars (t.length + 1) t).map fun p => (.str (String.mk p.1), p.2)
    | '\x7b' :: t =>
      match skipWs t with
      | '\x7d' :: r => some (.dict [], r)
      | _ => (parseMembers fuel t).map fun p => (.dict (hashSet [] p.1), p.2)
    | '[' :: t =>
      match skipWs t with
      | ']' :: r => some (.list [], r)
      | _ => (parseElems fuel t).map fun p => (.list p.1, p.2)
    | 't' :: t => if matchAtEq ['r', 'u', 'e'] t 0 then some (.bool true, t.drop 3) else Option.none
    | 'f' :: t => if matchAtEq ['a', 'l', 's', 'e'] t 0 then some (.bool false, t.drop 4) else Option.none
    | 'n' :: t => if matchAtEq ['u', 'l', 'l'] t 0 then some (.none, t.drop 3) else Option.none
    | 'N' :: t =>
      if matchAtEq ['a', 'N'] t 0 then some (.float "NaN", t.drop 2) else Option.none
    | 'I' :: t =>
      if matchAtEq ['n', 'f', 'i', 'n', 'i', 't', 'y'] t 0 then
        some (.float "Infinity", t.drop 7)
      else Option.none
    | '-' :: t =>
      if matchAtEq ['I', 'n', 'f', 'i', 'n', 'i', 't', 'y'] t 0 then
        some (.float "-Infinity", t.drop 8)
      else scanNumber t true
    | c :: t =>
      if c.isDigit then scanNumber (c :: t) false else Option.none

/-- Members of a JSON object after the opening brace (at least one), in
source order; the duplicate-key fold happens in `parseVal`. -/
def parseMembers : Nat → List Char → Option (List (String × PyVal) × List Char)
  | 0, _ => Option.none
  | fuel + 1, l =>
    match skipWs l with
    | '"' :: t =>
      match parseStringChars (t.length + 1) t with
      | some (key, afterKey) =>
        (match skipWs afterKey with
         | ':' :: r =>
           match parseVal fuel r with
           | some (v, rest) =>
             match skipWs rest with
             | ',' :: r2 =>
               (parseMembers fuel r2).map fun p => ((String.mk key, v) :: p.1, p.2)
             | '\x7d' :: r2 => some ([(String.mk key, v)], r2)
             | _ => Option.none
           | Option.none => Option.none
         | _ => Option.none)
      | Option.none => Option.none
    | _ => Option.none

/-- Elements of a JSON array after the opening bracket (at least one). -/
def parseElems : Nat → List Char → Option (List PyVal × List Char)
  | 0, _ => Option.none
  | fuel + 1, l =>
    match parseVal fuel l with
    | some (v, rest) =>
      match skipWs rest with
      | ',' :: r => (parseElems fuel r).map fun p => (v :: p.1, p.2)
      | ']' :: r => some ([v], r)
      | _ => Option.none
    | Option.none => Option.none

end

/-- `json.loads(s)` (returns `none` on `JSONDecodeError`). -/
def jsonParse (s : String) : Option PyVal :=
  match parseVal (s.data.length + 1) s.data with
  | some (v, rest) => if (skipWs rest).isEmpty then some v else Option.none
  | Option.none => Option.none

/-! ## Response Normalizer (`extract_recommendation`, `convert_tool_response`)

Faithful to `chat_router.py` lines 76–125 / `helper_func.py` lines 32–106.
Python exceptions that escape the inner `except json.JSONDecodeError`
(e.g. `TypeError` from `"recommendation" in 42`, `AttributeError` from
`item.get` on a non-dict) are modelled by `Except Unit`; the outer
`except Exception` maps them to the fallback string. -/

def fallbackMsg : String := "⚠️ No recommendation available."

/-- `convert_tool_response`: normalize any tool response to a dict. -/
def convert_tool_response : PyVal → List (String × PyVal)
  | .dict kvs => kvs
  | .list xs =>
    [("content", .list (xs.map fun t =>
      match t with
      | .text s => .dict [("text", .str s)]
      | v => .dict [("text", .str (pyStr v))]))]
  | .text s => [("content", .list [.dict [("text", .str s)]])]
  | .obj kvs => kvs
  | v => [("raw", .str (pyStr v))]

/-- Python `key in v`; raises `TypeError` (modelled as `.error ()`) on
non-container values. -/
def pyIn (key : String) : PyVal → Except Unit Bool
  | .dict kvs => .ok (kvs.any (·.1 = key))
  | .list xs => .ok (xs.any fun x => match x with | .str s => s = key | _ => false)
  | .str s => .ok (strContains s key)
  | _ => .error ()

/-- Python `v[key]`; raises (modelled as `.error ()`) unless `v` is a dict
containing the key. -/
def pyAt (v : PyVal) (key : String) : Except Unit PyVal :=
  match v with
  | .dict kvs =>
    match dictGet kvs key with
    | some r => .ok r
    | Option.none => .error ()
  | _ => .error ()

/-- The `for item in content_list` loop of `extract_recommendation`:
`ok (some r)` models `return r`, `ok none` models falling through the
loop, `.error` an exception reaching the outer handler. -/
def extractItems : List PyVal → Except Unit (Option PyVal)
  | [] => .ok Option.none
  | item :: rest =>
    match item with
    | .dict kvs =>
      let txt := (dictGet kvs "text").getD .none
      if pyTruthy txt then
        match txt with
        | .str s =>
          match jsonParse s with
          | some parsed => do
            if ← pyIn "recommendation" parsed then
              return some (← pyAt parsed "recommendation")
            else if ← pyIn "prompt" parsed then
              return some (← pyAt parsed "prompt")
            else
              extractItems rest
          | Option.none => .ok (some (.str s))
        | _ => .error ()
      else extractItems rest
    | _ => .error ()

def extractRecCore (v : PyVal) : Except Unit PyVal := do
  if ¬ pyTruthy v then return .str fallbackMsg
  let d := convert_tool_response v
  let structured := dictGetD d "structured_content" (.dict [])
  let hr ← pyIn "recommendation" structured
  let rv ← if hr then pyAt structured "recommendation" else pure PyVal.none
  if hr ∧ pyTruthy rv then return rv
  let hp ← pyIn "prompt" structured
  let pv ← if hp then pyAt structured "prompt" else pure PyVal.none
  if hp ∧ pyTruthy pv then return pv
  match dictGetD d "content" (.list []) with
  | .list xs =>
    match ← extractItems xs with
    | some r => return r
    | Option.none => pure ()
  | _ => pure ()
  if d.any (·.1 = "message") then return (dictGet d "message").getD .none
  match d.find? (fun kv => match kv.2 with | .str _ => true | _ => false) with
  | some kv => return kv.2
  | Option.none => return .str fallbackMsg

/-- `extract_recommendation`: the outer `except Exception` yields the
fallback string. -/
def extract_recommendation (v : PyVal) : PyVal :=
  match extractRecCore v with
  | .ok r => r
  | .error _ => .str fallbackMsg

/-! ## Field Extractor (`extract_user_info_from_text`,
`extract_booking_info_from_text`, `preprocess_user_input`) -/

/-- `extract_user_info_from_text` (chat_router.py 132–156): a dict whose
keys appear in insertion order name, age, contact, email, each present
only when its regex matched. -/
def extract_user_info_from_text (text : String) : List (String × PyVal) :=
  (match scanName text with
   | some n => [("name", PyVal.str (pyCapitalize n))]
   | Option.none => [])
  ++ (match scanAge text with
      | some a => [("age", PyVal.int a)]
      | Option.none => [])
  ++ (match scanContact text with
      | some c => [("contact", PyVal.str c)]
      | Option.none => [])
  ++ (match scanEmail text with
      | some e => [("email", PyVal.str e)]
      | Option.none => [])

def monthAbbrevs : List String :=
  ["jan", "feb", "mar", "apr", "may", "jun", "jul", "aug", "sep", "oct", "nov", "dec"]

/-- `datetime.strptime(f"{day} {month} {year}", "%d %b %Y").strftime("%Y-%m-%d")`;
`none` models the `ValueError` swallowed by the bare `except`.  `%b` accepts
only the three-letter month abbreviations (case-insensitively). -/
def strptimeDMY (day : Int) (month : String) (year : Nat) : Option String :=
  let mIdx := pyIndexOf monthAbbrevs (strLower month)
  if mIdx < 12 ∧ 1 ≤ day ∧ day ≤ (daysInMonth year (mIdx + 1) : Int) then
    some (fmtDate ⟨year, mIdx + 1, day.toNat⟩)
  else Option.none

/-- `extract_booking_info_from_text` (chat_router.py 159–190).
`nowYear` models `datetime.now().year`.  Note the result always contains
both keys, with `None` marking a field that was not found. -/
def extract_booking_info_from_text (nowYear : Nat) (text : String) : List (String × PyVal) :=
  let words := pySplitWs (String.mk ((strLower text).data.map fun c => if c = ',' ∨ c = '.' then ' ' else c))
  let date : PyVal :=
    if words.contains "on" then
      let idx := pyIndexOf words "on" + 1
      let dateWords := (words.drop idx).takeWhile (· ≠ "at")
      if 2 ≤ dateWords.length then
        match pyInt (dateWords.headD "") with
        | some day => ((strptimeDMY day (dateWords.getLastD "") nowYear).map PyVal.str).getD .none
        | Option.none => .none
      else .none
    else .none
  let time : PyVal :=
    if words.contains "at" then
      match words.get? (pyIndexOf words "at" + 1) with
      | some w => .str w
      | Option.none => .none
    else .none
  [("booking_date", date), ("booking_time", time)]

/-- `preprocess_user_input` (chat_router.py 195–202). -/
def preprocess_user_input (nowYear : Nat) (stage : String) (user_message : String) : PyVal :=
  if stage = "awaiting_user_info" then .dict (extract_user_info_from_text user_message)
  else if stage = "awaiting_availability" then .dict (extract_booking_info_from_text nowYear user_message)
  else .str (pyStrip user_message)

/-! ## Session stores -/

def isNoneV : PyVal → Bool
  | .none => true
  | _ => false

/-- `safe_hset` (chat_router.py 51–57, helper_func.py 179–193) acting on one
session hash: drop `None`-valued fields, write nothing if none remain. -/
def safe_hset (h : List (String × PyVal)) (mapping : List (String × PyVal)) :
    List (String × PyVal) :=
  if mapping.isEmpty then h
  else
    let clean := mapping.filter fun kv => ¬ isNoneV kv.2
    if clean.isEmpty then h else hashSet h clean

/-- Generic association-list get (Mongo/Redis keyed stores). -/
def aget {α : Type} : List (String × α) → String → Option α
  | [], _ => Option.none
  | kv :: t, k => if kv.1 = k then some kv.2 else aget t k

/-- Generic association-list set/overwrite. -/
def aset {α : Type} (l : List (String × α)) (k : String) (v : α) : List (String × α) :=
  if l.any (fun p => p.1 = k) then l.map (fun p => if p.1 = k then (p.1, v) else p)
  else l ++ [(k, v)]

/-- A professional document (field `type` is called `ptype`; the numeric
`years_experience`/`rating` only ever appear interpolated into messages, so
they are carried in rendered form). -/
structure Professional where
  name : String
  ptype : String
  city : String
  certification : String
  working_days : List String
  years_experience : String
  rating : String
  default_time : Option String

/-- A document of the durable `bookings` collection.  The customer-snapshot
fields come from `session_cache.get(...)`; an absent session field is the
Python `None`, rendered here as the string `"None"` (the null/string
distinction is immaterial to every slot comparison, which is between
`str` values). -/
structure Booking where
  booking_id : String
  chat_id : String
  professional_name : String
  customer_name : String
  age : String
  contact : String
  email : String
  booking_date : String
  booking_time : String
  status : String

/-- World state: the fast cache (session hashes and the professionals-list
cache) and the durable stores.  Durable session fields that no code path
ever reads back (`recommendation`, customer copies, `selected_professional`)
are not tracked. -/
structure St where
  redis : List (String × List (String × PyVal))
  profCache : List (String × List Professional)
  mongoStage : List (String × String)
  mongoProfs : List (String × List Professional)
  bookings : List Booking

def St.empty : St := ⟨[], [], [], [], []⟩

def stSession (st : St) (chat : String) : List (String × PyVal) :=
  (aget st.redis chat).getD []

/-- `r.hset(f"session:{chat_id}", mapping=...)`. -/
def stHset (st : St) (chat : String) (kvs : List (String × PyVal)) : St :=
  { st with redis := aset st.redis chat (hashSet (stSession st chat) kvs) }

/-- `safe_hset(r, f"session:{chat_id}", mapping)`. -/
def stSafeHset (st : St) (chat : String) (mapping : List (String × PyVal)) : St :=
  if mapping.isEmpty then st
  else
    let clean := mapping.filter fun kv => ¬ isNoneV kv.2
    if clean.isEmpty then st else stHset st chat clean

/-- `r.delete(f"session:{chat_id}")`. -/
def stRedisDelete (st : St) (chat : String) : St :=
  { st with redis := st.redis.filter fun p => p.1 ≠ chat }

def stSetMongoStage (st : St) (chat stage : String) : St :=
  { st with mongoStage := aset st.mongoStage chat stage }

def stSetMongoProfs (st : St) (chat : String) (ps : List Professional) : St :=
  { st with mongoProfs := aset st.mongoProfs chat ps }

def stInsertBooking (st : St) (b : Booking) : St :=
  { st with bookings := st.bookings ++ [b] }

/-- External collaborators: the LLM (`none` models an exception the tool
raises, which `run_tool` converts to `None`), the seeded professionals
directory, and the wall-clock year used by the legacy date extractor. -/
structure Env where
  llm : String → Option String
  profs : List Professional
  nowYear : Nat

/-! ## Conflict Checker and Availability Resolver -/

/-- The conflict query of `check_availability` (mcp_tools.py 240–244):
`find_one` on the exact (professional, date, time) triple.  Note the query
carries no `status` clause. -/
def has_conflict (bs : List Booking) (name date time : String) : Bool :=
  bs.any fun b =>
    b.professional_name == name && b.booking_date == date && b.booking_time == time

/-- The conflict check as §4.4 of the spec words it (claim C2): an exact
match on the three slot fields *with status `confirmed`*. -/
def has_conflict_spec (bs : List Booking) (name date time : String) : Bool :=
  bs.any fun b =>
    b.professional_name == name && b.booking_date == date && b.booking_time == time &&
    b.status == "confirmed"

/-- `datetime.strptime(f"{booking_date} {booking_time}", "%Y-%m-%d %H:%M")`:
`none` models the `ValueError` on a shape-correct but invalid date/time. -/
def parseDateTime (ds ts : String) : Option Date :=
  match ds.data, ts.data with
  | [y1, y2, y3, y4, '-', m1, m2, '-', d1, d2], [h1, h2, ':', n1, n2] =>
    if [y1, y2, y3, y4, m1, m2, d1, d2, h1, h2, n1, n2].all Char.isDigit then
      let dg : Char → Nat := fun c => c.toNat - 48
      let y := dg y1 * 1000 + dg y2 * 100 + dg y3 * 10 + dg y4
      let mo := dg m1 * 10 + dg m2
      let da := dg d1 * 10 + dg d2
      let h := dg h1 * 10 + dg h2
      let mi := dg n1 * 10 + dg n2
      if 1 ≤ y ∧ 1 ≤ mo ∧ mo ≤ 12 ∧ 1 ≤ da ∧ da ≤ daysInMonth y mo ∧ h ≤ 23 ∧ mi ≤ 59 then
        some ⟨y, mo, da⟩
      else Option.none
    else Option.none
  | _, _ => Option.none

inductive AvailDecision where
  | available
  | suggest (d : Date) (t : String)
  | noSlot
deriving DecidableEq, Repr

/-- The availability block of `check_availability` (mcp_tools.py 218–237,
identical in src/src/mcp/mcp_tools.py 262–276): same-weekday check, then a
forward scan `for i in range(1, 8)` for the first working weekday, suggested
at the professional's `default_time` (fallback `"10:00"`). -/
def availabilityCore (prof : Professional) (dt : Date) : AvailDecision :=
  let weekday := weekdayName dt
  if prof.working_days.contains weekday then .available
  else
    match (List.range' 1 7).find? (fun i =>
        prof.working_days.contains
          (weekdaysMap.getD ((pyIndexOf weekdaysMap weekday + i) % 7) "")) with
    | some i => .suggest (addDays dt i) (prof.default_time.getD "10:00")
    | Option.none => .noSlot

/-! ## MCP tools, single-turn-booking revision (`mcp_tools.py`)

Each tool returns `(Option dict, St)`: `none` models an exception inside
the tool body, which `run_tool` turns into a `None` result.  Token checks
always pass (the router passes the configured token).  Durable writes of
fields nothing reads back are not tracked (see `St`). -/

def validCities : List String := ["Kolkata", "Pune", "Bangalore", "Delhi"]

def specialties : List String := ["Cardiologist", "Dermatologist", "Dentist", "Neurologist"]

/-- `recommend_service` (mcp_tools.py 49–73). -/
def recommend_service (env : Env) (st : St) (chat msg : String) :
    Option (List (String × PyVal)) × St :=
  match env.llm msg with
  | Option.none => (Option.none, st)
  | some reply0 =>
    let reply := pyStrip reply0
    let st := stHset st chat [("recommendation", .str reply), ("messages", .str msg)]
    (some [("recommendation", .str reply),
           ("prompt", .str "Please mention your city (e.g., Kolkata, Pune, Bangalore, Delhi).")],
     st)

/-- `list_professionals` (mcp_tools.py 79–125).  The Redis-cached list is
structured data here; the source's `eval(r.get(...))` round-trip of its own
`str(...)` serialization is modelled as the identity. -/
def list_professionals (env : Env) (st : St) (chat msg : String) :
    Option (List (String × PyVal)) × St :=
  let context := stSession st chat
  let recommendation :=
    match dictGet context "recommendation" with
    | some v => pyStr v
    | Option.none => "General Practitioner"
  let service_type := (searchAltCI specialties recommendation).getD "General Practitioner"
  match validCities.find? (containsWordCI msg) with
  | Option.none =>
    (some [("recommendation",
            .str ("Could not detect city. Please mention one of Kolkata, Pune, Bangalore, Delhi."))],
     st)
  | some city =>
    let cacheKey := "professionals:" ++ city ++ ":" ++ service_type
    let hit := aget st.profCache cacheKey
    let professionals :=
      match hit with
      | some ps => ps
      | Option.none =>
        env.profs.filter fun p =>
          strLower p.city == strLower city && strContainsCI p.ptype service_type
    let st :=
      match hit with
      | some _ => st
      | Option.none => { st with profCache := aset st.profCache cacheKey professionals }
    if professionals.isEmpty then
      (some [("recommendation", .str ("No " ++ service_type ++ "s found in " ++ city ++ "."))], st)
    else
      let formatted := strJoin "\n" (professionals.map fun p =>
        "- " ++ p.name ++ " (" ++ p.certification ++ ") — Available: " ++
        strJoin ", " p.working_days ++ " - Year of experience: " ++
        p.years_experience ++ " - Rating: " ++ p.rating)
      let st := stSetMongoProfs st chat professionals
      (some [("recommendation",
              .str ("Here are the " ++ service_type ++ "s in " ++ city ++ ":\n" ++ formatted ++
                    "\n\nPlease type the professional's name to continue."))],
       st)

/-- `select_professional` (mcp_tools.py 131–153). -/
def select_professional (st : St) (chat msg : String) :
    Option (List (String × PyVal)) × St :=
  let profs := (aget st.mongoProfs chat).getD []
  if profs.isEmpty then
    (some [("recommendation", .str "No professionals available. Please list them first.")], st)
  else
    match profs.find? (fun p => containsWordCI msg p.name) with
    | Option.none =>
      (some [("recommendation",
              .str "Could not detect professional's name. Please type the exact name from the list.")],
       st)
    | some sel =>
      let st := stHset st chat [("selected_professional", .str sel.name)]
      (some [("recommendation",
              .str ("✅ " ++ sel.name ++ " selected (" ++ sel.ptype ++
                    "). Please provide your name, age, contact number, and email."))],
       st)

/-- `collect_user_info` (mcp_tools.py 159–185).  Redis stores hash values
as strings (the client decodes responses), hence the `pyStr` rendering on
write. -/
def collect_user_info (st : St) (chat : String) (name age contact email : PyVal) :
    Option (List (String × PyVal)) × St :=
  let cache := stSession st chat
  let name := if pyTruthy name then name else (dictGet cache "customer_name").getD .none
  let age := if pyTruthy age then age else (dictGet cache "age").getD .none
  let contact := if pyTruthy contact then contact else (dictGet cache "contact").getD .none
  let email := if pyTruthy email then email else (dictGet cache "email").getD .none
  let missing :=
    (if ¬ pyTruthy name then ["name"] else []) ++
    (if ¬ pyTruthy age then ["age"] else []) ++
    (if ¬ pyTruthy email ∨ ¬ emailFullMatch (pyStr email) then ["valid email"] else []) ++
    (if ¬ pyTruthy contact ∨ digitCount (pyStr contact) < 8 then ["valid contact number"] else [])
  if ¬ missing.isEmpty then
    (some [("status", .str "incomplete"),
           ("recommendation",
            .str ("Please provide missing fields: " ++ strJoin ", " missing ++ "."))],
     st)
  else
    let st := stHset st chat
      [("customer_name", .str (pyStr name)), ("age", .str (pyStr age)),
       ("contact", .str (pyStr contact)), ("email", .str (pyStr email))]
    (some [("status", .str "complete"),
           ("recommendation",
            .str ("User info recorded for " ++ pyStr name ++ " (" ++ pyStr age ++ " yrs, " ++
                  pyStr email ++ "). Proceed to check availability."))],
     st)

/-- `check_availability` (mcp_tools.py 191–266): availability resolution,
conflict check, immediate Booking insert.  `newId` models `uuid4()`; a
`ValueError` from `strptime` (shape-correct but invalid date) is the `none`
result. -/
def check_availability (env : Env) (st : St) (chat msg newId : String) :
    Option (List (String × PyVal)) × St :=
  let cache := stSession st chat
  let selected := (dictGet cache "selected_professional").getD .none
  if ¬ pyTruthy selected then
    (some [("status", .str "unavailable"), ("recommendation", .str "No professional selected yet.")],
     st)
  else
    let selectedName := pyStr selected
    match env.profs.find? (fun p => p.name == selectedName) with
    | Option.none =>
      (some [("status", .str "unavailable"),
             ("recommendation", .str (selectedName ++ " not found."))], st)
    | some prof =>
      match scanDate msg, scanTime msg with
      | some bdate, some btime =>
        (match parseDateTime bdate btime with
         | Option.none => (Option.none, st)
         | some dt =>
           match availabilityCore prof dt with
           | .available =>
             if has_conflict st.bookings selectedName bdate btime then
               (some [("status", .str "unavailable"),
                      ("recommendation", .str (selectedName ++ " already booked at that time."))],
                st)
             else
               let b : Booking :=
                 { booking_id := newId, chat_id := chat, professional_name := selectedName
                   customer_name := pyStr ((dictGet cache "customer_name").getD .none)
                   age := pyStr ((dictGet cache "age").getD .none)
                   contact := pyStr ((dictGet cache "contact").getD .none)
                   email := pyStr ((dictGet cache "email").getD .none)
                   booking_date := bdate, booking_time := btime, status := "confirmed" }
               let st := stInsertBooking st b
               let st := stHset st chat [("status", .str "complete"), ("booking_id", .str newId)]
               (some [("status", .str "confirmed"),
                      ("recommendation",
                       .str ("✅ Booking confirmed with " ++ selectedName ++ " on " ++ bdate ++
                             " at " ++ btime ++ "."))],
                st)
           | .suggest nd stime =>
             (some [("status", .str "unavailable"),
                    ("recommendation",
                     .str (selectedName ++ " not available on " ++ weekdayName dt ++
                           ". Next available slot: " ++ fmtDate nd ++ " at " ++ stime ++ "."))],
              st)
           | .noSlot =>
             (some [("status", .str "unavailable"),
                    ("recommendation", .str (selectedName ++ " not available any day this week."))],
              st))
      | _, _ =>
        (some [("status", .str "unavailable"),
               ("recommendation", .str "Please provide date (YYYY-MM-DD) and time (HH:MM).")],
         st)

/-! ## HTTP turn handlers (`chat_router.py`)

A handler returns `(body, St)` where `body` is the JSON response as an
association list.  `run_tool`'s `None` result is fed to the normalizer as
the Python `None` (`PyVal.none`).  The fast cache and durable stores are
modelled as total: the handlers' own failure handling covers only what
their `try/except` covers in the source (LLM/tool exceptions, via
`run_tool`), while the session reads at the top of `continue_chat` and
`new_chat`'s initial writes sit OUTSIDE the `try/except` there — a store
fault at those lines would propagate unhandled, a behaviour this embedding
does not model and no theorem below asserts anything about. -/

/-- Wrap a tool result the way the handler code sees it: `tool.run(params)`
on a fastmcp `@mcp.tool()` object returns a `ToolResult` — an object whose
`__dict__` holds `content` (a list of `TextContent` objects; the text is
the JSON dump of the dict, which no modelled path ever reads, because
`item.get` on a `TextContent` raises `AttributeError` first) and
`structured_content` (the tool function's returned dict).  The raw dict
itself never reaches the router, so `isinstance(tool_response, dict)` is
always `False` there.  `run_tool` converts a tool exception into `None`. -/
def toolVal : Option (List (String × PyVal)) → PyVal
  | some d => .obj [("content", .list [.text (pyStr (.dict d))]),
                    ("structured_content", .dict d)]
  | Option.none => .none

/-- `new_chat` (chat_router.py 208–240).  Note the handler converts the
tool response before extraction (`convert_tool_response(None)` is
`{"raw": "None"}`), and its body carries no `status` field. -/
def new_chat (env : Env) (st : St) (chat rawMsg : String) :
    List (String × PyVal) × St :=
  let userMessage := pyStrip rawMsg
  let st := stSafeHset st chat [("stage", .str "recommendation")]
  let st := stSetMongoStage st chat "recommendation"
  let processed := preprocess_user_input env.nowYear "recommendation" userMessage
  let (tr, st) := recommend_service env st chat (pyStr processed)
  let converted := PyVal.dict (convert_tool_response (toolVal tr))
  let responseText := extract_recommendation converted
  let st := stSafeHset st chat [("stage", .str "awaiting_city"), ("recommendation", responseText)]
  let st := stSetMongoStage st chat "awaiting_city"
  ([("chat_id", .str chat), ("response", responseText)], st)

/-- `stage = session_cache.get("stage") or session_data.get("stage")
or "recommendation"` (chat_router.py 250). -/
def loadStage (st : St) (chat : String) : String :=
  let s1 := match dictGet (stSession st chat) "stage" with
            | some (.str s) => s
            | _ => ""
  if s1 ≠ "" then s1
  else
    let s2 := (aget st.mongoStage chat).getD ""
    if s2 ≠ "" then s2 else "recommendation"

/-- `processed_input if isinstance(processed_input, str) else ""`. -/
def strOr (v : PyVal) : String :=
  match v with
  | .str s => s
  | _ => ""

/-- `processed_input if isinstance(processed_input, dict) else {}`. -/
def dictOr (v : PyVal) : List (String × PyVal) :=
  match v with
  | .dict kvs => kvs
  | _ => []

/-- `continue_chat` (chat_router.py 246–344).  `newBookingId` models the
`uuid4()` a booking insert would draw.  The `status == "confirmed"`
early-return branch is retained as the source has it, although it is dead:
the tool response is a `ToolResult` object or `None`, never a dict, so the
`isinstance(tool_response, dict)` guards make `status` and `booking_id`
always `None`. -/
def continue_chat (env : Env) (st : St) (chat rawMsg newBookingId : String) :
    List (String × PyVal) × St :=
  let userMessage := pyStrip rawMsg
  let stage := loadStage st chat
  let processed := preprocess_user_input env.nowYear stage userMessage
  if stage = "recommendation" then
    let (tr, st) := recommend_service env st chat (pyStr processed)
    let responseText := extract_recommendation (toolVal tr)
    let st := stSafeHset st chat [("stage", .str "awaiting_city")]
    let st := stSetMongoStage st chat "awaiting_city"
    ([("chat_id", .str chat), ("response", responseText), ("status", .str "in_progress")], st)
  else if stage = "awaiting_city" then
    let cityStr := strOr processed
    let (tr, st) := list_professionals env st chat cityStr
    let responseText := extract_recommendation (toolVal tr)
    let st := stSafeHset st chat [("stage", .str "awaiting_prof_selection")]
    let st := stSetMongoStage st chat "awaiting_prof_selection"
    ([("chat_id", .str chat), ("response", responseText), ("status", .str "in_progress")], st)
  else if stage = "awaiting_prof_selection" then
    let profName := strOr processed
    let (tr, st) := select_professional st chat profName
    let responseText := extract_recommendation (toolVal tr)
    let st := stSafeHset st chat [("stage", .str "awaiting_user_info")]
    let st := stSetMongoStage st chat "awaiting_user_info"
    ([("chat_id", .str chat), ("response", responseText), ("status", .str "in_progress")], st)
  else if stage = "awaiting_user_info" then
    let userInfo := dictOr processed
    let (tr, st) := collect_user_info st chat
      ((dictGet userInfo "name").getD .none) ((dictGet userInfo "age").getD .none)
      ((dictGet userInfo "contact").getD .none) ((dictGet userInfo "email").getD .none)
    let responseText := extract_recommendation (toolVal tr)
    let st := stSafeHset st chat [("stage", .str "awaiting_availability")]
    let st := stSetMongoStage st chat "awaiting_availability"
    ([("chat_id", .str chat), ("response", responseText), ("status", .str "in_progress")], st)
  else if stage = "awaiting_availability" then
    let bookingInfo := dictOr processed
    let dateTimeStr :=
      (pyStr (dictGetD bookingInfo "booking_date" (.str ""))) ++ " " ++
      (pyStr (dictGetD bookingInfo "booking_time" (.str "")))
    let (tr, st) := check_availability env st chat (pyStrip dateTimeStr) newBookingId
    let responseText := extract_recommendation (toolVal tr)
    let status := match toolVal tr with | .dict d => dictGet d "status" | _ => Option.none
    let bookingIdVal := match toolVal tr with | .dict d => dictGet d "booking_id" | _ => Option.none
    match status with
    | some (.str "confirmed") =>
      let st := stRedisDelete st chat
      ([("chat_id", .str chat), ("response", responseText), ("status", .str "confirmed"),
        ("booking_id", bookingIdVal.getD .none)], st)
    | _ =>
      let st := stSafeHset st chat [("stage", .str "awaiting_availability")]
      let st := stSetMongoStage st chat "awaiting_availability"
      ([("chat_id", .str chat), ("response", responseText), ("status", .str "in_progress")], st)
  else
    let st := stRedisDelete st chat
    ([("chat_id", .str chat), ("response", .str "Conversation complete. Thank you!"),
      ("status", .str "in_progress")], st)

/-- A user-visible turn against the single-turn-booking revision. -/
inductive Turn where
  | newChat (chat msg : String)
  | contChat (chat msg newBookingId : String)

def applyTurn (env : Env) (st : St) : Turn → St
  | .newChat c m => (new_chat env st c m).2
  | .contChat c m i => (continue_chat env st c m i).2

def applyTurns (env : Env) (turns : List Turn) (st : St) : St :=
  turns.foldl (applyTurn env) st

/-! ## MCP tools, confirmation-gate revision (`src/src/mcp/mcp_tools.py`)

This evolved revision splits booking across two turns:
`check_availability` only stashes the slot in the session, and
`confirm_booking` inserts the Booking from the session — with no conflict
check of its own.  The unused `session_update` payloads (which carry a
wall-clock timestamp) are not modelled. -/

def yesWords : List String := ["yes", "y", "confirm", "yeah", "correct", "ok"]

def noWords : List String := ["no", "n", "wrong", "incorrect", "change", "edit"]

/-- `select_professional` of the gate revision (src/src/mcp/mcp_tools.py
136–165): exact case-insensitive name lookup in the directory. -/
def select_professional_mcp (env : Env) (st : St) (chat msg : String) :
    List (String × PyVal) × St :=
  match env.profs.find? (fun p => strLower p.name == strLower msg) with
  | Option.none =>
    ([("status", .str "not_found"),
      ("recommendation", .str ("No professional named " ++ msg ++ " found."))], st)
  | some prof =>
    let st := stHset st chat
      [("selected_professional", .str prof.name), ("service_type", .str prof.ptype)]
    ([("status", .str "success"),
      ("recommendation",
       .str (prof.name ++ " selected. Please provide your name, age, contact, and email."))],
     st)

/-- `check_availability` of the gate revision (src/src/mcp/mcp_tools.py
237–286): same resolution and conflict check as the single-turn revision,
but on success it stores the pending slot in the session and answers
`In-progress` — no insert. -/
def check_availability_mcp (env : Env) (st : St) (chat msg newId : String) :
    Option (List (String × PyVal)) × St :=
  let cache := stSession st chat
  let selected := (dictGet cache "selected_professional").getD .none
  if ¬ pyTruthy selected then
    (some [("status", .str "unavailable"), ("recommendation", .str "No professional selected yet.")],
     st)
  else
    let selectedName := pyStr selected
    match env.profs.find? (fun p => p.name == selectedName) with
    | Option.none =>
      (some [("status", .str "unavailable"),
             ("recommendation", .str (selectedName ++ " not found."))], st)
    | some prof =>
      match scanDate msg, scanTime msg with
      | some bdate, some btime =>
        (match parseDateTime bdate btime with
         | Option.none => (Option.none, st)
         | some dt =>
           match availabilityCore prof dt with
           | .available =>
             if has_conflict st.bookings selectedName bdate btime then
               (some [("status", .str "unavailable"),
                      ("recommendation", .str (selectedName ++ " already booked at that time."))],
                st)
             else
               let st := stHset st chat
                 [("booking_date", .str bdate), ("booking_time", .str btime),
                  ("booking_id", .str newId)]
               (some [("status", .str "In-progress"),
                      ("recommendation",
                       .str ("Here are your booking details :: professional_name: " ++ selectedName ++
                             ", service_type: " ++ pyStr ((dictGet cache "service_type").getD .none) ++
                             ", customer_name: " ++ pyStr ((dictGet cache "name").getD .none) ++
                             ", age: " ++ pyStr ((dictGet cache "age").getD .none) ++
                             ", contact: " ++ pyStr ((dictGet cache "contact").getD .none) ++
                             ", email: " ++ pyStr ((dictGet cache "email").getD .none) ++
                             ". Are you sure you want to book on " ++ bdate ++ " at " ++ btime ++
                             "? (yes/no)."))],
                st)
           | .suggest nd stime =>
             (some [("status", .str "unavailable"),
                    ("recommendation",
                     .str (selectedName ++ " not available on " ++ weekdayName dt ++
                           ". Next available slot: " ++ fmtDate nd ++ " at " ++ stime ++ "."))],
              st)
           | .noSlot =>
             (some [("status", .str "unavailable"),
                    ("recommendation", .str (selectedName ++ " not available any day this week."))],
              st))
      | _, _ =>
        (some [("status", .str "unavailable"),
               ("recommendation", .str "Please provide date (YYYY-MM-DD) and time (HH:MM).")],
         st)

/-- `confirm_booking` (src/src/mcp/mcp_tools.py 292–337): on an
affirmative answer it inserts the session's pending slot as a `confirmed`
Booking — with no conflict check before the insert. -/
def confirm_booking (st : St) (chat msg : String) :
    List (String × PyVal) × St :=
  let cache := stSession st chat
  if cache.isEmpty then
    ([("status", .str "error"),
      ("recommendation", .str "No session found. Please start again.")], st)
  else
    let m := strLower (pyStrip msg)
    if yesWords.contains m then
      let bidVal := (dictGet cache "booking_id").getD .none
      if ¬ pyTruthy bidVal then
        ([("status", .str "error"),
          ("recommendation", .str "No booking to confirm. Please provide date and time first.")], st)
      else
        let bid := pyStr bidVal
        let b : Booking :=
          { booking_id := bid, chat_id := chat
            professional_name := pyStr ((dictGet cache "selected_professional").getD .none)
            customer_name := pyStr ((dictGet cache "name").getD .none)
            age := pyStr ((dictGet cache "age").getD .none)
            contact := pyStr ((dictGet cache "contact").getD .none)
            email := pyStr ((dictGet cache "email").getD .none)
            booking_date := pyStr ((dictGet cache "booking_date").getD .none)
            booking_time := pyStr ((dictGet cache "booking_time").getD .none)
            status := "confirmed" }
        let st := stInsertBooking st b
        let st := stHset st chat [("status", .str "booked")]
        ([("status", .str "confirmed"),
          ("recommendation", .str ("Booking confirmed! Your booking ID is " ++ bid ++ "."))], st)
    else if noWords.contains m then
      ([("status", .str "rejected"),
        ("recommendation",
         .str "Please provide your preferred booking date and time (YYYY-MM-DD at HH:MM).")], st)
    else
      ([("status", .str "unclear"), ("recommendation", .str "Please confirm your booking (yes/no).")],
       st)

/-- A turn against the confirmation-gate revision's tools. -/
inductive McpTurn where
  | select (chat msg : String)
  | checkAvail (chat msg newId : String)
  | confirm (chat msg : String)

def applyMcpTurn (env : Env) (st : St) : McpTurn → St
  | .select c m => (select_professional_mcp env st c m).2
  | .checkAvail c m i => (check_availability_mcp env st c m i).2
  | .confirm c m => (confirm_booking st c m).2

def applyMcpTurns (env : Env) (turns : List McpTurn) (st : St) : St :=
  turns.foldl (applyMcpTurn env) st

/-- Number of `confirmed` Bookings for one slot triple. -/
def countSlot (bs : List Booking) (name date time : String) : Nat :=
  (bs.filter fun b =>
    b.status == "confirmed" && b.professional_name == name &&
    b.booking_date == date && b.booking_time == time).length

/-- At most one `confirmed` Booking per (professional, date, time) triple:
no two distinct store entries are both `confirmed` on the same slot. -/
def SlotUnique (bs : List Booking) : Prop :=
  bs.Pairwise fun a b =>
    ¬ (a.status = "confirmed" ∧ b.status = "confirmed" ∧
       a.professional_name = b.professional_name ∧
       a.booking_date = b.booking_date ∧ a.booking_time = b.booking_time)

instance (bs : List Booking) : Decidable (SlotUnique bs) := by
  unfold SlotUnique; exact List.instDecidablePairwise bs

/-! ## Calendar lemmas -/

theorem daysInMonth_pos (y m : Nat) (h1 : 1 ≤ m) (h2 : m ≤ 12) :
    1 ≤ daysInMonth y m := by
  have hfeb : 1 ≤ daysInMonth y 2 := by
    simp only [daysInMonth, if_true]
    split <;> norm_num
  interval_cases m
  case «2» => exact hfeb
  all_goals simp [daysInMonth]

theorem daysBeforeMonth_full (y : Nat) : daysBeforeMonth y 13 = daysInYear y := by
  by_cases h : isLeap y <;>
    simp [daysBeforeMonth, daysInMonth, daysInYear, h, List.getD]

theorem isLeap_iff (y : Nat) :
    isLeap y = true ↔ ((y % 4 = 0 ∧ y % 100 ≠ 0) ∨ y % 400 = 0) := by
  unfold isLeap
  simp

theorem daysBeforeYear_succ (y : Nat) (h : 1 ≤ y) :
    daysBeforeYear (y + 1) = daysBeforeYear y + daysInYear y := by
  unfold daysBeforeYear daysInYear
  dsimp only
  by_cases hL : isLeap y = true
  · rw [if_pos hL]
    rcases (isLeap_iff y).mp hL with ⟨h4, h100⟩ | h400
    · omega
    · omega
  · rw [if_neg hL]
    have hn := (not_iff_not.mpr (isLeap_iff y)).mp hL
    push_neg at hn
    obtain ⟨hn1, hn2⟩ := hn
    by_cases h4 : y % 4 = 0
    · have h100 : y % 100 = 0 := hn1 h4
      omega
    · omega

theorem nextDay_valid (d : Date) (h : d.Valid) : (nextDay d).Valid := by
  obtain ⟨hy, hm1, hm12, hd1, hdm⟩ := h
  unfold nextDay
  by_cases h1 : d.day < daysInMonth d.year d.month
  · simp only [h1, if_true]
    refine ⟨hy, hm1, hm12, ?_, ?_⟩
    · show 1 ≤ d.day + 1
      omega
    · show d.day + 1 ≤ daysInMonth d.year d.month
      omega
  · by_cases h2 : d.month < 12
    · simp only [h1, h2, if_true, if_false]
      refine ⟨hy, ?_, ?_, le_refl 1, ?_⟩
      · show 1 ≤ d.month + 1
        omega
      · show d.month + 1 ≤ 12
        omega
      · exact daysInMonth_pos d.year (d.month + 1) (by omega) (by omega)
    · simp only [h1, h2, if_false]
      refine ⟨?_, le_refl 1, ?_, le_refl 1, ?_⟩
      · show 1 ≤ d.year + 1
        omega
      · show (1 : Nat) ≤ 12
        norm_num
      · exact daysInMonth_pos (d.year + 1) 1 (by omega) (by omega)

theorem rataDie_nextDay (d : Date) (h : d.Valid) :
    rataDie (nextDay d) = rataDie d + 1 := by
  obtain ⟨hy, hm1, hm12, hd1, hdm⟩ := h
  unfold nextDay
  by_cases h1 : d.day < daysInMonth d.year d.month
  · simp only [h1, if_true, rataDie]
    omega
  · have hde : d.day = daysInMonth d.year d.month := le_antisymm hdm (not_lt.mp h1)
    by_cases h2 : d.month < 12
    · simp only [h1, h2, if_true, if_false, rataDie]
      have : daysBeforeMonth d.year (d.month + 1)
          = daysBeforeMonth d.year d.month + daysInMonth d.year d.month := rfl
      omega
    · have hm : d.month = 12 := le_antisymm hm12 (not_lt.mp h2)
      simp only [h1, h2, if_false, rataDie]
      have e1 : daysBeforeYear (d.year + 1) = daysBeforeYear d.year + daysInYear d.year :=
        daysBeforeYear_succ d.year hy
      have e2 : daysBeforeMonth d.year 13 = daysInYear d.year := daysBeforeMonth_full d.year
      have e3 : daysBeforeMonth d.year 13
          = daysBeforeMonth d.year 12 + daysInMonth d.year 12 := rfl
      have e4 : daysBeforeMonth (d.year + 1) 1 = 0 := by
        simp [daysBeforeMonth, daysInMonth, List.getD]
      rw [hm] at hde ⊢
      omega

theorem addDays_valid (d : Date) (h : d.Valid) (n : Nat) : (addDays d n).Valid := by
  induction n with
  | zero => exact h
  | succ k ih => exact nextDay_valid _ ih

theorem rataDie_addDays (d : Date) (h : d.Valid) (n : Nat) :
    rataDie (addDays d n) = rataDie d + n := by
  induction n with
  | zero => rfl
  | succ k ih =>
    have := rataDie_nextDay (addDays d k) (addDays_valid d h k)
    simp only [addDays]
    omega

theorem weekdayIdx_addDays (d : Date) (h : d.Valid) (n : Nat) :
    weekdayIdx (addDays d n) = (weekdayIdx d + n) % 7 := by
  unfold weekdayIdx
  rw [rataDie_addDays d h n]
  omega

theorem weekdayIdx_lt (d : Date) : weekdayIdx d < 7 :=
  Nat.mod_lt _ (by norm_num)

theorem pyIndexOf_weekdayName (d : Date) :
    pyIndexOf weekdaysMap (weekdayName d) = weekdayIdx d := by
  have h7 := weekdayIdx_lt d
  unfold weekdayName
  set k := weekdayIdx d with hk
  interval_cases k <;> decide

theorem findCongr {α : Type} (l : List α) (p q : α → Bool)
    (h : ∀ a ∈ l, p a = q a) : l.find? p = l.find? q := by
  induction l with
  | nil => rfl
  | cons a t ih =>
    have ha := h a (List.mem_cons_self a t)
    simp only [List.find?]
    rw [ha]
    cases q a
    · exact ih fun b hb => h b (List.mem_cons_of_mem a hb)
    · rfl

/-- The Availability Resolver exactly as §4.3 of the spec words it:
same-weekday hit is `available`; otherwise scan forward day by day over the
following 7 days for the first date whose weekday is a working day, and
suggest it at the professional's default time (fallback `"10:00"`). -/
def resolveSpec (prof : Professional) (dt : Date) : AvailDecision :=
  if prof.working_days.contains (weekdayName dt) then .available
  else
    match (List.range' 1 7).find? (fun i =>
        prof.working_days.contains (weekdayName (addDays dt i))) with
    | some i => .suggest (addDays dt i) (prof.default_time.getD "10:00")
    | Option.none => .noSlot

theorem weekdayName_addDays (dt : Date) (h : dt.Valid) (i : Nat) :
    weekdayName (addDays dt i) = weekdaysMap.getD ((weekdayIdx dt + i) % 7) "" := by
  unfold weekdayName
  rw [weekdayIdx_addDays dt h i]

theorem availabilityCore_eq_resolveSpec (prof : Professional) (dt : Date) (h : dt.Valid) :
    availabilityCore prof dt = resolveSpec prof dt := by
  unfold availabilityCore resolveSpec
  have hpt : ∀ i ∈ List.range' 1 7,
      prof.working_days.contains
        (weekdaysMap.getD ((pyIndexOf weekdaysMap (weekdayName dt) + i) % 7) "")
      = prof.working_days.contains (weekdayName (addDays dt i)) := by
    intro i _
    rw [pyIndexOf_weekdayName, weekdayName_addDays dt h i]
  dsimp only
  rw [findCongr _ _ _ hpt]

/-- A Monday/Wednesday/Friday professional with default time 09:30, for the
§8 suggestion scenario. -/
def profMWF : Professional :=
  ⟨"Dr. Meera Joshi", "Dentist", "Delhi", "BDS", ["Monday", "Wednesday", "Friday"],
   "7", "4.5", some "09:30"⟩

/-! ## Store lemmas -/

theorem aget_map_overwrite {α : Type} (t : List (String × α)) (k : String) (v : α)
    (hmem : (t.any fun p => p.1 = k) = true) :
    aget (t.map fun p => if p.1 = k then (p.1, v) else p) k = some v := by
  induction t with
  | nil => simp at hmem
  | cons p t ih =>
    by_cases hp : p.1 = k
    · simp [aget, hp]
    · simp only [List.any_cons, Bool.or_eq_true, decide_eq_true_eq] at hmem
      rcases hmem with hmem | hmem
      · exact absurd hmem hp
      · simp only [List.map_cons, if_neg hp, aget]
        exact ih hmem

theorem aget_append_single {α : Type} (t : List (String × α)) (k : String) (v : α)
    (h : ¬ (t.any fun p => p.1 = k) = true) :
    aget (t ++ [(k, v)]) k = some v := by
  induction t with
  | nil => simp [aget]
  | cons p t ih =>
    simp only [List.any_cons, Bool.or_eq_true, decide_eq_true_eq] at h
    push_neg at h
    simp only [List.cons_append, aget, if_neg h.1]
    exact ih (by simpa using h.2)

theorem aget_aset_self {α : Type} (l : List (String × α)) (k : String) (v : α) :
    aget (aset l k v) k = some v := by
  unfold aset
  split
  case isTrue hh => exact aget_map_overwrite l k v hh
  case isFalse hh => exact aget_append_single l k v hh

theorem dictGet_eq_aget (l : List (String × PyVal)) (k : String) :
    dictGet l k = aget l k := by
  induction l with
  | nil => rfl
  | cons p t ih => simp only [dictGet, aget, ih]

theorem dictGet_setKey_self (h : List (String × PyVal)) (k : String) (v : PyVal) :
    dictGet (setKey h (k, v)) k = some v := by
  rw [dictGet_eq_aget]
  exact aget_aset_self h k v

theorem dictGet_map_cases (t : List (String × PyVal)) (k0 : String) (v0 : PyVal)
    (k : String) (v : PyVal)
    (hget : dictGet (t.map fun p => if p.1 = k0 then (p.1, v0) else p) k = some v) :
    (k = k0 ∧ v = v0) ∨ dictGet t k = some v := by
  induction t with
  | nil => simp [dictGet] at hget
  | cons p t ih =>
    simp only [List.map_cons, dictGet] at hget ⊢
    by_cases hpk : p.1 = k0
    · simp only [if_pos hpk] at hget
      by_cases hp : p.1 = k
      · rw [if_pos hp] at hget
        left
        refine ⟨by rw [← hp, hpk], ?_⟩
        injection hget with h'
        exact h'.symm
      · rw [if_neg hp] at hget
        rcases ih hget with h' | h'
        · exact Or.inl h'
        · right; rw [if_neg hp]; exact h'
    · simp only [if_neg hpk] at hget
      by_cases hp : p.1 = k
      · rw [if_pos hp] at hget
        right; rw [if_pos hp]; exact hget
      · rw [if_neg hp] at hget
        rcases ih hget with h' | h'
        · exact Or.inl h'
        · right; rw [if_neg hp]; exact h'

theorem dictGet_append_cases (t : List (String × PyVal)) (k0 : String) (v0 : PyVal)
    (k : String) (v : PyVal)
    (hget : dictGet (t ++ [(k0, v0)]) k = some v) :
    (k = k0 ∧ v = v0) ∨ dictGet t k = some v := by
  induction t with
  | nil =>
    simp only [List.nil_append, dictGet] at hget
    split at hget
    case isTrue hk0 =>
      left
      refine ⟨hk0.symm, ?_⟩
      injection hget with h'
      exact h'.symm
    case isFalse => simp [dictGet] at hget
  | cons p t ih =>
    simp only [List.cons_append, dictGet] at hget
    by_cases hp : p.1 = k
    · rw [if_pos hp] at hget
      right
      simp only [dictGet, if_pos hp]
      exact hget
    · rw [if_neg hp] at hget
      rcases ih hget with h' | h'
      · exact Or.inl h'
      · right
        simp only [dictGet, if_neg hp]
        exact h'

/-- A value read back after `setKey` is the freshly written pair or an old
binding. -/
theorem dictGet_setKey_cases (h : List (String × PyVal)) (k0 : String) (v0 : PyVal)
    (k : String) (v : PyVal) (hget : dictGet (setKey h (k0, v0)) k = some v) :
    (k = k0 ∧ v = v0) ∨ dictGet h k = some v := by
  unfold setKey at hget
  split at hget
  · exact dictGet_map_cases h k0 v0 k v hget
  · exact dictGet_append_cases h k0 v0 k v hget

/-- A value read back after a Redis `HSET` merge comes from the mapping or
from the old hash. -/
theorem dictGet_hashSet_cases (kvs : List (String × PyVal))
    (h : List (String × PyVal)) (k : String) (v : PyVal)
    (hget : dictGet (hashSet h kvs) k = some v) :
    (k, v) ∈ kvs ∨ dictGet h k = some v := by
  induction kvs generalizing h with
  | nil => exact Or.inr hget
  | cons kv t ih =>
    simp only [hashSet, List.foldl_cons] at hget
    rcases ih (setKey h kv) (by simpa [hashSet] using hget) with hmem | hold
    · exact Or.inl (List.mem_cons_of_mem kv hmem)
    · rcases dictGet_setKey_cases h kv.1 kv.2 k v hold with ⟨hk, hv⟩ | hv
      · subst hk; subst hv
        exact Or.inl (List.mem_cons_self _ _)
      · exact Or.inr hv

theorem dictGet_setKey_self' (h : List (String × PyVal)) (k : String) (v : PyVal) :
    dictGet (hashSet h [(k, v)]) k = some v := by
  simpa [hashSet] using dictGet_setKey_self h k v

theorem stSession_stHset (st : St) (c : String) (kvs : List (String × PyVal)) :
    stSession (stHset st c kvs) c = hashSet (stSession st c) kvs := by
  unfold stSession stHset
  simp only [aget_aset_self, Option.getD_some]
  rfl

theorem stSafeHset_stage (st : St) (c s : String) :
    stSafeHset st c [("stage", PyVal.str s)] = stHset st c [("stage", PyVal.str s)] := by
  simp [stSafeHset, isNoneV]

/-- After a turn stores a (non-empty) next stage, `loadStage` reads it
back from the fast cache. -/
theorem loadStage_after_set (st : St) (c s s' : String) (hs : s ≠ "") :
    loadStage (stSetMongoStage (stSafeHset st c [("stage", PyVal.str s)]) c s') c = s := by
  unfold loadStage
  have h1 : stSession (stSetMongoStage (stSafeHset st c [("stage", PyVal.str s)]) c s') c
      = stSession (stHset st c [("stage", PyVal.str s)]) c := by
    rw [stSafeHset_stage]
    rfl
  rw [h1, stSession_stHset, dictGet_setKey_self']
  simp [hs]

/-! ## Bookings-effect lemmas: which turns touch the durable bookings
store, and how -/

theorem stHset_bookings (st : St) (c : String) (kvs : List (String × PyVal)) :
    (stHset st c kvs).bookings = st.bookings := rfl

theorem stSafeHset_bookings (st : St) (c : String) (m : List (String × PyVal)) :
    (stSafeHset st c m).bookings = st.bookings := by
  unfold stSafeHset
  split
  · rfl
  · dsimp only
    split
    · rfl
    · rfl

theorem recommend_service_bookings (env : Env) (st : St) (c m : String) :
    ((recommend_service env st c m).2).bookings = st.bookings := by
  cases henv : env.llm m <;> simp [recommend_service, henv, stHset_bookings]

theorem list_professionals_bookings (env : Env) (st : St) (c m : String) :
    ((list_professionals env st c m).2).bookings = st.bookings := by
  unfold list_professionals
  dsimp only
  repeat' split <;> simp [stSetMongoProfs]

theorem select_professional_bookings (st : St) (c m : String) :
    ((select_professional st c m).2).bookings = st.bookings := by
  unfold select_professional
  dsimp only
  repeat' split
  all_goals rfl

theorem collect_user_info_bookings (st : St) (c : String) (n a ct e : PyVal) :
    ((collect_user_info st c n a ct e).2).bookings = st.bookings := by
  unfold collect_user_info
  dsimp only
  rw [apply_ite (fun p : Option (List (String × PyVal)) × St => p.2.bookings)]
  dsimp only
  simp only [stHset_bookings, ite_self]

/-- The single-turn `check_availability` either leaves the bookings store
untouched or appends one `confirmed` Booking whose slot triple had just
been conflict-checked empty. -/
theorem check_availability_bookings (env : Env) (st : St) (c m i : String) :
    ((check_availability env st c m i).2).bookings = st.bookings ∨
    ∃ b : Booking, b.status = "confirmed" ∧
      has_conflict st.bookings b.professional_name b.booking_date b.booking_time = false ∧
      ((check_availability env st c m i).2).bookings = st.bookings ++ [b] := by
  unfold check_availability
  dsimp only
  repeat' split
  all_goals try (left; rfl)
  case _ hconf =>
    right
    refine ⟨_, rfl, ?_, rfl⟩
    simpa using hconf

theorem stSetMongoStage_bookings (st : St) (c s : String) :
    (stSetMongoStage st c s).bookings = st.bookings := rfl

theorem stRedisDelete_bookings (st : St) (c : String) :
    (stRedisDelete st c).bookings = st.bookings := rfl

theorem new_chat_bookings (env : Env) (st : St) (c m : String) :
    ((new_chat env st c m).2).bookings = st.bookings := by
  unfold new_chat
  dsimp only
  simp only [stSetMongoStage_bookings, stSafeHset_bookings, recommend_service_bookings]

/-- A continue-chat turn leaves the bookings store untouched, or appends
one conflict-checked `confirmed` Booking (via `check_availability`). -/
theorem continue_chat_bookings (env : Env) (st : St) (c m i : String) :
    ((continue_chat env st c m i).2).bookings = st.bookings ∨
    ∃ b : Booking, b.status = "confirmed" ∧
      has_conflict st.bookings b.professional_name b.booking_date b.booking_time = false ∧
      ((continue_chat env st c m i).2).bookings = st.bookings ++ [b] := by
  unfold continue_chat
  dsimp only
  by_cases h1 : loadStage st c = "recommendation"
  · rw [if_pos h1]
    left
    simp only [stSetMongoStage_bookings, stSafeHset_bookings, recommend_service_bookings]
  rw [if_neg h1]
  by_cases h2 : loadStage st c = "awaiting_city"
  · rw [if_pos h2]
    left
    simp only [stSetMongoStage_bookings, stSafeHset_bookings, list_professionals_bookings]
  rw [if_neg h2]
  by_cases h3 : loadStage st c = "awaiting_prof_selection"
  · rw [if_pos h3]
    left
    simp only [stSetMongoStage_bookings, stSafeHset_bookings, select_professional_bookings]
  rw [if_neg h3]
  by_cases h4 : loadStage st c = "awaiting_user_info"
  · rw [if_pos h4]
    left
    simp only [stSetMongoStage_bookings, stSafeHset_bookings, collect_user_info_bookings]
  rw [if_neg h4]
  by_cases h5 : loadStage st c = "awaiting_availability"
  · rw [if_pos h5]
    split
    all_goals
      simp only [stRedisDelete_bookings, stSetMongoStage_bookings, stSafeHset_bookings]
    all_goals
      exact check_availability_bookings env st c _ i
  rw [if_neg h5]
  left
  rfl

theorem slotUnique_append (bs : List Booking) (nb : Booking) (h : SlotUnique bs)
    (hc : has_conflict bs nb.professional_name nb.booking_date nb.booking_time = false) :
    SlotUnique (bs ++ [nb]) := by
  unfold SlotUnique at h ⊢
  rw [List.pairwise_append]
  refine ⟨h, List.pairwise_singleton _ _, ?_⟩
  intro a ha b' hb'
  simp only [List.mem_singleton] at hb'
  rintro ⟨hsa, hsb, hpn, hbd, hbt⟩
  rw [hb'] at hpn hbd hbt
  unfold has_conflict at hc
  have htrue : (bs.any fun x =>
      x.professional_name == nb.professional_name && x.booking_date == nb.booking_date &&
      x.booking_time == nb.booking_time) = true := by
    apply List.any_eq_true.mpr
    refine ⟨a, ha, ?_⟩
    simp only [Bool.and_eq_true, beq_iff_eq]
    exact ⟨⟨hpn, hbd⟩, hbt⟩
  rw [hc] at htrue
  exact Bool.false_ne_true htrue

theorem continue_chat_slotUnique (env : Env) (st : St) (c m i : String)
    (h : SlotUnique st.bookings) :
    SlotUnique ((continue_chat env st c m i).2).bookings := by
  rcases continue_chat_bookings env st c m i with heq | ⟨b, _, hcf, heq⟩
  · rw [heq]; exact h
  · rw [heq]
    exact slotUnique_append _ b h hcf

theorem new_chat_slotUnique (env : Env) (st : St) (c m : String)
    (h : SlotUnique st.bookings) :
    SlotUnique ((new_chat env st c m).2).bookings := by
  rw [new_chat_bookings]
  exact h

/-- Reduction of `check_availability` once the session has a selected
professional, the directory lookup succeeds and the message parses: the
tool's behaviour is exactly the availability resolution followed — only in
the `available` case — by the conflict check and insert. -/
theorem check_availability_unfolded (env : Env) (st : St) (chat msg newId pn : String)
    (prof : Professional) (ds ts : String) (dt : Date)
    (h1 : dictGet (stSession st chat) "selected_professional" = some (PyVal.str pn))
    (h0 : pn ≠ "")
    (h2 : env.profs.find? (fun p => p.name == pn) = some prof)
    (h3 : scanDate msg = some ds) (h4 : scanTime msg = some ts)
    (h5 : parseDateTime ds ts = some dt) :
    check_availability env st chat msg newId =
      match availabilityCore prof dt with
      | .available =>
        if has_conflict st.bookings pn ds ts then
          (some [("status", PyVal.str "unavailable"),
                 ("recommendation", PyVal.str (pn ++ " already booked at that time."))], st)
        else
          (some [("status", PyVal.str "confirmed"),
                 ("recommendation", PyVal.str ("✅ Booking confirmed with " ++ pn ++ " on " ++
                   ds ++ " at " ++ ts ++ "."))],
           stHset (stInsertBooking st
             { booking_id := newId, chat_id := chat, professional_name := pn
               customer_name := pyStr ((dictGet (stSession st chat) "customer_name").getD .none)
               age := pyStr ((dictGet (stSession st chat) "age").getD .none)
               contact := pyStr ((dictGet (stSession st chat) "contact").getD .none)
               email := pyStr ((dictGet (stSession st chat) "email").getD .none)
               booking_date := ds, booking_time := ts, status := "confirmed" })
             chat [("status", PyVal.str "complete"), ("booking_id", PyVal.str newId)])
      | .suggest nd stime =>
        (some [("status", PyVal.str "unavailable"),
               ("recommendation", PyVal.str (pn ++ " not available on " ++ weekdayName dt ++
                 ". Next available slot: " ++ fmtDate nd ++ " at " ++ stime ++ "."))], st)
      | .noSlot =>
        (some [("status", PyVal.str "unavailable"),
               ("recommendation", PyVal.str (pn ++ " not available any day this week."))], st) := by
  unfold check_availability
  dsimp only
  rw [h1]
  simp only [Option.getD_some]
  have hpt : pyTruthy (PyVal.str pn) = true := by simp [pyTruthy, h0]
  rw [hpt]
  simp only [reduceIte]
  simp only [pyStr]
  rw [h2, h3, h4]
  dsimp only
  rw [h5]
  dsimp only
  cases availabilityCore prof dt <;> rfl

/-! ## Concrete fixtures for the claim scenarios -/

/-- A Monday-only professional. -/
def drStrange : Professional :=
  ⟨"Dr. Strange", "Cardiologist", "Pune", "MD", ["Monday"], "10", "4.5", some "11:00"⟩

/-- A concrete, well-behaved collaborator environment (2025-10-20 is a
Monday). -/
def envFix : Env := ⟨fun _ => some "Cardiologist", [drStrange], 2025⟩

/-! ## Claim theorems -/

set_option maxRecDepth 40000 in
/-- C1 (counterexample): in the confirmation-gate revision an entirely
sequential interleaving of two conversations — each running
`select_professional`, then `check_availability` (which conflict-checks and
finds the slot free, since nothing is inserted yet), then `confirm_booking`
(which inserts with **no** conflict check) — leaves TWO `confirmed`
Bookings for the same (professional, date, time) triple in the durable
store, refuting both the at-most-one invariant and the
"every insert is immediately preceded by a conflict check" part of the
claim. -/
theorem c1_counterexample :
    countSlot (applyMcpTurns envFix
      [.select "A" "Dr. Strange", .checkAvail "A" "2025-10-20 10:00" "id-A",
       .select "B" "Dr. Strange", .checkAvail "B" "2025-10-20 10:00" "id-B",
       .confirm "A" "yes", .confirm "B" "yes"] St.empty).bookings
      "Dr. Strange" "2025-10-20" "10:00" = 2 := by decide

/-- C1 (amended): in the single-turn-booking revision (`mcp_tools.py`,
where `check_availability` itself performs the conflict check immediately
before the insert), any sequence of sequential HTTP turns preserves
at-most-one `confirmed` Booking per (professional, date, time) triple. -/
theorem c1_amended (env : Env) (turns : List Turn) (st : St)
    (h : SlotUnique st.bookings) : SlotUnique (applyTurns env turns st).bookings := by
  induction turns generalizing st with
  | nil => exact h
  | cons t ts ih =>
    cases t with
    | newChat c m => exact ih _ (new_chat_slotUnique env st c m h)
    | contChat c m i => exact ih _ (continue_chat_slotUnique env st c m i h)

theorem c1_amended_witness :
    SlotUnique (St.empty).bookings ∧
    SlotUnique (applyTurns envFix
      [.newChat "A" "I have chest pain", .contChat "A" "Pune" "id-1"] St.empty).bookings :=
  ⟨by decide,
   c1_amended envFix [.newChat "A" "I have chest pain", .contChat "A" "Pune" "id-1"]
     St.empty (by decide)⟩

set_option maxRecDepth 40000 in
/-- C4: the availability block of `check_availability` coincides with the
spec's resolver — same-weekday requests are `available` (the conflict check
comes after), otherwise the first strictly later date within the following
7 days whose weekday is a working day is suggested at the professional's
default time (fallback `"10:00"`), and `noSlot` is reported when no such day
exists; and, concretely, for a Monday/Wednesday/Friday professional a
request for 2025-10-21 (a Tuesday) yields the suggestion 2025-10-22
(Wednesday) at the professional's default time 09:30. -/
theorem c4_availability_resolver :
    (∀ (prof : Professional) (dt : Date), dt.Valid →
      availabilityCore prof dt = resolveSpec prof dt) ∧
    weekdayName ⟨2025, 10, 21⟩ = "Tuesday" ∧
    availabilityCore profMWF ⟨2025, 10, 21⟩ = .suggest ⟨2025, 10, 22⟩ "09:30" ∧
    weekdayName ⟨2025, 10, 22⟩ = "Wednesday" := by
  refine ⟨availabilityCore_eq_resolveSpec, ?_, ?_, ?_⟩ <;> decide

set_option maxRecDepth 40000 in
theorem c4_availability_resolver_witness :
    (⟨2025, 10, 21⟩ : Date).Valid ∧
    availabilityCore profMWF ⟨2025, 10, 21⟩ = resolveSpec profMWF ⟨2025, 10, 21⟩ :=
  ⟨by decide, c4_availability_resolver.1 profMWF ⟨2025, 10, 21⟩ (by decide)⟩

set_option maxRecDepth 40000 in
/-- C3 (counterexample): an `awaiting_user_info` turn whose message is just
`"12345"` (5 digits, so no field extracts) ADVANCES the stage to
`awaiting_availability` — the router sets the next stage unconditionally —
refuting "if the input is malformed the stage does not advance" and "leaves
the stage unchanged".  (The claimed scenario's other half holds: the
response is the tool's missing-fields message, which lists "valid contact
number".) -/
theorem c3_counterexample :
    loadStage ((continue_chat envFix
      { St.empty with redis := [("C", [("stage", PyVal.str "awaiting_user_info")])] }
      "C" "12345" "id-1").2) "C" = "awaiting_availability" ∧
    "awaiting_availability" ≠ "awaiting_user_info" ∧
    dictGet ((continue_chat envFix
      { St.empty with redis := [("C", [("stage", PyVal.str "awaiting_user_info")])] }
      "C" "12345" "id-1").1) "response"
      = some (PyVal.str
        "Please provide missing fields: name, age, valid email, valid contact number.") := by
  refine ⟨by decide, by decide, rfl⟩

/-- C3 (amended): the continue-chat router advances the stage exactly one
step along recommendation → awaiting_city → awaiting_prof_selection →
awaiting_user_info → awaiting_availability on EVERY turn in those stages,
regardless of whether the extracted input was well-formed.  For the
`"12345"` scenario, no field extracts and the `collect_user_info` tool
answers `status "incomplete"` with "valid contact number" among the missing
fields — the normalizer surfaces that `recommendation` message as the
turn's response, so only the claim's stage-unchanged half fails. -/
theorem c3_amended (env : Env) (st : St) (chat msg newId : String) :
    (loadStage st chat = "recommendation" →
      loadStage ((continue_chat env st chat msg newId).2) chat = "awaiting_city") ∧
    (loadStage st chat = "awaiting_city" →
      loadStage ((continue_chat env st chat msg newId).2) chat = "awaiting_prof_selection") ∧
    (loadStage st chat = "awaiting_prof_selection" →
      loadStage ((continue_chat env st chat msg newId).2) chat = "awaiting_user_info") ∧
    (loadStage st chat = "awaiting_user_info" →
      loadStage ((continue_chat env st chat msg newId).2) chat = "awaiting_availability") ∧
    extract_user_info_from_text "12345" = [] ∧
    (collect_user_info St.empty chat .none .none .none .none).1
      = some [("status", PyVal.str "incomplete"),
              ("recommendation", PyVal.str
                "Please provide missing fields: name, age, valid email, valid contact number.")] := by
  refine ⟨?_, ?_, ?_, ?_, rfl, rfl⟩
  · intro h
    unfold continue_chat
    dsimp only
    rw [h]
    simp only [reduceIte]
    exact loadStage_after_set _ chat _ _ (by decide)
  · intro h
    unfold continue_chat
    dsimp only
    rw [h]
    simp only [reduceIte]
    exact loadStage_after_set _ chat _ _ (by decide)
  · intro h
    unfold continue_chat
    dsimp only
    rw [h]
    simp only [reduceIte]
    exact loadStage_after_set _ chat _ _ (by decide)
  · intro h
    unfold continue_chat
    dsimp only
    rw [h]
    simp only [reduceIte]
    exact loadStage_after_set _ chat _ _ (by decide)

set_option maxRecDepth 40000 in
theorem c3_amended_witness :
    loadStage { St.empty with redis := [("C", [("stage", PyVal.str "awaiting_city")])] } "C"
      = "awaiting_city" ∧
    loadStage ((continue_chat envFix
      { St.empty with redis := [("C", [("stage", PyVal.str "awaiting_city")])] }
      "C" "Pune" "id-1").2) "C" = "awaiting_prof_selection" :=
  ⟨by decide,
   (c3_amended envFix { St.empty with redis := [("C", [("stage", PyVal.str "awaiting_city")])] }
     "C" "Pune" "id-1").2.1 (by decide)⟩


/-- C10: a continue-chat turn for a conversation id with no fast-cache
entry and no durable session record does not fail and is not reported as
not found: the stage defaults to `recommendation`, the turn runs the
recommendation flow (the stored next stage is `awaiting_city`), and the
returned status is `in_progress`. -/
theorem c10_unknown_conversation (env : Env) (st : St) (chat msg newId : String)
    (hredis : aget st.redis chat = Option.none)
    (hmongo : aget st.mongoStage chat = Option.none) :
    loadStage st chat = "recommendation" ∧
    dictGet ((continue_chat env st chat msg newId).1) "status"
      = some (PyVal.str "in_progress") ∧
    loadStage ((continue_chat env st chat msg newId).2) chat = "awaiting_city" := by
  have hstage : loadStage st chat = "recommendation" := by
    unfold loadStage stSession
    rw [hredis, hmongo]
    simp [dictGet]
  refine ⟨hstage, ?_, ?_⟩
  · unfold continue_chat
    dsimp only
    rw [hstage]
    simp only [reduceIte]
    rfl
  · unfold continue_chat
    dsimp only
    rw [hstage]
    simp only [reduceIte]
    exact loadStage_after_set _ chat _ _ (by decide)

/-! ## Response-shape lemmas (for the always-a-string guarantees) -/

theorem extractRec_none : extract_recommendation .none = .str fallbackMsg := rfl

/-- Extraction from a `ToolResult` whose structured content is a
`recommendation`/`prompt` dict (the `recommend_service` shape) is a string:
the truthy one of the two fields, else the fallback (the content blocks are
`TextContent` objects, on which `item.get` raises). -/
theorem extractRec_tool_rp (a b : String) :
    ∃ s, extract_recommendation
      (toolVal (some [("recommendation", PyVal.str a), ("prompt", PyVal.str b)]))
      = PyVal.str s := by
  by_cases ha : a = ""
  · subst ha
    by_cases hb : b = ""
    · subst hb
      exact ⟨fallbackMsg, rfl⟩
    · refine ⟨b, ?_⟩
      have hv : pyTruthy (PyVal.str b) = true := by simp [pyTruthy, hb]
      simp [toolVal, extract_recommendation, extractRecCore, convert_tool_response, dictGetD,
            dictGet, pyIn, pyAt, hv, Except.bind, Except.pure, bind, pure]
      simp [pyTruthy]
  · refine ⟨a, ?_⟩
    have hv : pyTruthy (PyVal.str a) = true := by simp [pyTruthy, ha]
    simp [toolVal, extract_recommendation, extractRecCore, convert_tool_response, dictGetD,
          dictGet, pyIn, pyAt, hv, Except.bind, Except.pure, bind, pure]
    simp [pyTruthy]

/-- Extraction from a `ToolResult` whose structured content is a bare
`recommendation` dict (the `list_professionals` / `select_professional`
shape) is a string. -/
theorem extractRec_tool_r (a : String) :
    ∃ s, extract_recommendation (toolVal (some [("recommendation", PyVal.str a)]))
      = PyVal.str s := by
  by_cases ha : a = ""
  · subst ha
    exact ⟨fallbackMsg, rfl⟩
  · refine ⟨a, ?_⟩
    have hv : pyTruthy (PyVal.str a) = true := by simp [pyTruthy, ha]
    simp [toolVal, extract_recommendation, extractRecCore, convert_tool_response, dictGetD,
          dictGet, pyIn, pyAt, hv, Except.bind, Except.pure, bind, pure]
    simp [pyTruthy]

/-- Extraction from a `ToolResult` whose structured content is a
`status`/`recommendation` dict (the `collect_user_info` /
`check_availability` shape) is a string. -/
theorem extractRec_tool_sr (x y : String) :
    ∃ s, extract_recommendation
      (toolVal (some [("status", PyVal.str x), ("recommendation", PyVal.str y)]))
      = PyVal.str s := by
  by_cases hy : y = ""
  · subst hy
    exact ⟨fallbackMsg, rfl⟩
  · refine ⟨y, ?_⟩
    have hv : pyTruthy (PyVal.str y) = true := by simp [pyTruthy, hy]
    simp [toolVal, extract_recommendation, extractRecCore, convert_tool_response, dictGetD,
          dictGet, pyIn, pyAt, hv, Except.bind, Except.pure, bind, pure]
    simp [pyTruthy]

/-- The `new_chat` spelling — the handler converts the `ToolResult` to a
dict itself before extraction — also yields a string on the
`recommend_service` shape. -/
theorem extractRec_conv_rp (a b : String) :
    ∃ s, extract_recommendation
      (.dict (convert_tool_response
        (toolVal (some [("recommendation", PyVal.str a), ("prompt", PyVal.str b)]))))
      = PyVal.str s := by
  by_cases ha : a = ""
  · subst ha
    by_cases hb : b = ""
    · subst hb
      exact ⟨fallbackMsg, rfl⟩
    · refine ⟨b, ?_⟩
      have hv : pyTruthy (PyVal.str b) = true := by simp [pyTruthy, hb]
      simp [toolVal, extract_recommendation, extractRecCore, convert_tool_response, dictGetD,
            dictGet, pyIn, pyAt, hv, Except.bind, Except.pure, bind, pure]
      simp [pyTruthy]
  · refine ⟨a, ?_⟩
    have hv : pyTruthy (PyVal.str a) = true := by simp [pyTruthy, ha]
    simp [toolVal, extract_recommendation, extractRecCore, convert_tool_response, dictGetD,
          dictGet, pyIn, pyAt, hv, Except.bind, Except.pure, bind, pure]
    simp [pyTruthy]

theorem ite_shape_pair (C : Prop) [Decidable C] (x1 y1 x2 y2 : String) :
    ∃ x y, (if C then
        (some [("status", PyVal.str x1), ("recommendation", PyVal.str y1)] :
          Option (List (String × PyVal)))
      else some [("status", PyVal.str x2), ("recommendation", PyVal.str y2)])
      = some [("status", PyVal.str x), ("recommendation", PyVal.str y)] := by
  by_cases h : C
  · exact ⟨x1, y1, by rw [if_pos h]⟩
  · exact ⟨x2, y2, by rw [if_neg h]⟩

theorem recommend_service_shape (env : Env) (st : St) (c m : String) :
    (recommend_service env st c m).1 = Option.none ∨
    ∃ a, (recommend_service env st c m).1
      = some [("recommendation", PyVal.str a),
              ("prompt", PyVal.str "Please mention your city (e.g., Kolkata, Pune, Bangalore, Delhi).")] := by
  cases h : env.llm m with
  | none =>
    left
    simp [recommend_service, h]
  | some r =>
    right
    exact ⟨pyStrip r, by simp [recommend_service, h]⟩

theorem list_professionals_shape (env : Env) (st : St) (c m : String) :
    ∃ a, (list_professionals env st c m).1 = some [("recommendation", PyVal.str a)] := by
  unfold list_professionals
  dsimp only
  repeat' split
  all_goals exact ⟨_, rfl⟩

theorem select_professional_shape (st : St) (c m : String) :
    ∃ a, (select_professional st c m).1 = some [("recommendation", PyVal.str a)] := by
  unfold select_professional
  dsimp only
  repeat' split
  all_goals exact ⟨_, rfl⟩

theorem collect_user_info_shape (st : St) (c : String) (n a ct e : PyVal) :
    ∃ x y, (collect_user_info st c n a ct e).1
      = some [("status", PyVal.str x), ("recommendation", PyVal.str y)] := by
  unfold collect_user_info
  dsimp only
  rw [apply_ite (fun p : Option (List (String × PyVal)) × St => p.1)]
  exact ite_shape_pair _ _ _ _ _

theorem check_availability_shape (env : Env) (st : St) (c m i : String) :
    (check_availability env st c m i).1 = Option.none ∨
    ∃ x y, (check_availability env st c m i).1
      = some [("status", PyVal.str x), ("recommendation", PyVal.str y)] := by
  unfold check_availability
  dsimp only
  repeat' split
  all_goals first
    | (left; rfl)
    | (right; exact ⟨_, _, rfl⟩)

/-- Any tool result of the shapes the five tools produce extracts to a
string. -/
theorem response_str_of_tool (tr : Option (List (String × PyVal)))
    (h : tr = Option.none ∨
      (∃ a b, tr = some [("recommendation", PyVal.str a), ("prompt", PyVal.str b)]) ∨
      (∃ a, tr = some [("recommendation", PyVal.str a)]) ∨
      (∃ a b, tr = some [("status", PyVal.str a), ("recommendation", PyVal.str b)])) :
    ∃ s, extract_recommendation (toolVal tr) = PyVal.str s := by
  rcases h with rfl | ⟨a, b, rfl⟩ | ⟨a, rfl⟩ | ⟨a, b, rfl⟩
  · exact ⟨fallbackMsg, rfl⟩
  · exact extractRec_tool_rp a b
  · exact extractRec_tool_r a
  · exact extractRec_tool_sr a b

theorem new_chat_body (env : Env) (st : St) (chat msg : String) :
    ∃ s, (new_chat env st chat msg).1
      = [("chat_id", PyVal.str chat), ("response", PyVal.str s)] := by
  unfold new_chat
  dsimp only
  rcases recommend_service_shape env
      (stSetMongoStage (stSafeHset st chat [("stage", PyVal.str "recommendation")])
        chat "recommendation")
      chat (pyStr (preprocess_user_input env.nowYear "recommendation" (pyStrip msg)))
    with h | ⟨a, h⟩
  · rw [h]
    exact ⟨"None", rfl⟩
  · rw [h]
    obtain ⟨s, hs⟩ := extractRec_conv_rp a
      "Please mention your city (e.g., Kolkata, Pune, Bangalore, Delhi)."
    rw [hs]
    exact ⟨s, rfl⟩

/-- Every continue-chat body is `{chat_id, response: string,
status: "in_progress"}`: the `status == "confirmed"` early return is dead,
because the tool response is a `ToolResult` object (or `None`), never a
dict, so the router's `isinstance` guard makes `status` always `None`. -/
theorem continue_chat_body (env : Env) (st : St) (chat msg newId : String) :
    ∃ s, (continue_chat env st chat msg newId).1
      = [("chat_id", PyVal.str chat), ("response", PyVal.str s),
         ("status", PyVal.str "in_progress")] := by
  unfold continue_chat
  dsimp only
  by_cases h1 : loadStage st chat = "recommendation"
  · rw [h1]
    simp only [reduceIte]
    rcases recommend_service_shape env st chat
        (pyStr (preprocess_user_input env.nowYear "recommendation" (pyStrip msg)))
      with h | ⟨a, h⟩
    · rw [h]; exact ⟨fallbackMsg, rfl⟩
    · rw [h]
      obtain ⟨s, hs⟩ := extractRec_tool_rp a
        "Please mention your city (e.g., Kolkata, Pune, Bangalore, Delhi)."
      rw [hs]
      exact ⟨s, rfl⟩
  rw [if_neg h1]
  by_cases h2 : loadStage st chat = "awaiting_city"
  · rw [h2]
    simp only [reduceIte]
    rcases list_professionals_shape env st chat
        (strOr (preprocess_user_input env.nowYear "awaiting_city" (pyStrip msg)))
      with ⟨a, h⟩
    rw [h]
    obtain ⟨s, hs⟩ := extractRec_tool_r a
    rw [hs]
    exact ⟨s, rfl⟩
  rw [if_neg h2]
  by_cases h3 : loadStage st chat = "awaiting_prof_selection"
  · rw [h3]
    simp only [reduceIte]
    rcases select_professional_shape st chat
        (strOr (preprocess_user_input env.nowYear "awaiting_prof_selection" (pyStrip msg)))
      with ⟨a, h⟩
    rw [h]
    obtain ⟨s, hs⟩ := extractRec_tool_r a
    rw [hs]
    exact ⟨s, rfl⟩
  rw [if_neg h3]
  by_cases h4 : loadStage st chat = "awaiting_user_info"
  · rw [h4]
    simp only [reduceIte]
    rcases collect_user_info_shape st chat
        ((dictGet (dictOr (preprocess_user_input env.nowYear "awaiting_user_info" (pyStrip msg)))
          "name").getD PyVal.none)
        ((dictGet (dictOr (preprocess_user_input env.nowYear "awaiting_user_info" (pyStrip msg)))
          "age").getD PyVal.none)
        ((dictGet (dictOr (preprocess_user_input env.nowYear "awaiting_user_info" (pyStrip msg)))
          "contact").getD PyVal.none)
        ((dictGet (dictOr (preprocess_user_input env.nowYear "awaiting_user_info" (pyStrip msg)))
          "email").getD PyVal.none)
      with ⟨x, y, h⟩
    rw [h]
    obtain ⟨s, hs⟩ := extractRec_tool_sr x y
    rw [hs]
    exact ⟨s, rfl⟩
  rw [if_neg h4]
  by_cases h5 : loadStage st chat = "awaiting_availability"
  · rw [h5]
    simp only [reduceIte]
    rcases check_availability_shape env st chat
        (pyStrip
          (pyStr (dictGetD (dictOr (preprocess_user_input env.nowYear "awaiting_availability"
            (pyStrip msg))) "booking_date" (PyVal.str "")) ++ " " ++
           pyStr (dictGetD (dictOr (preprocess_user_input env.nowYear "awaiting_availability"
            (pyStrip msg))) "booking_time" (PyVal.str ""))))
        newId
      with h | ⟨x, y, h⟩
    · rw [h]
      exact ⟨fallbackMsg, rfl⟩
    · rw [h]
      obtain ⟨s, hs⟩ := extractRec_tool_sr x y
      rw [hs]
      exact ⟨s, rfl⟩
  rw [if_neg h5]
  exact ⟨"Conversation complete. Thank you!", rfl⟩

/-- C5: every continue-chat turn returns `status "in_progress"` — the
tool response is a `ToolResult` object (or `None`), never a dict, so
`isinstance(tool_response, dict)` is `False`, `status`/`booking_id` are
`None`, and the `status == "confirmed"` early return is dead code.  The
claim therefore holds: the returned status is always one of
`in_progress`/`confirmed` (namely `in_progress`), and the
"`confirmed` implies a non-null `booking_id`" conditional is vacuous, as
the second conjunct records. -/
theorem c5_status_in_progress (env : Env) (st : St) (chat msg newId : String) :
    dictGet ((continue_chat env st chat msg newId).1) "status"
      = some (PyVal.str "in_progress") ∧
    dictGet ((continue_chat env st chat msg newId).1) "status"
      ≠ some (PyVal.str "confirmed") := by
  obtain ⟨s, h⟩ := continue_chat_body env st chat msg newId
  rw [h]
  refine ⟨rfl, ?_⟩
  intro hc
  rw [show dictGet [("chat_id", PyVal.str chat), ("response", PyVal.str s),
        ("status", PyVal.str "in_progress")] "status"
      = some (PyVal.str "in_progress") from rfl] at hc
  injection hc with hc2
  injection hc2 with hc3
  exact absurd hc3 (by decide)

/-- The Response Normalizer as claim C6 words it: precedence (2) lets the
FIRST truthy text item of the content list decide — its re-parsed
`recommendation`/`prompt` value when the JSON has one, ELSE THE RAW TEXT
(on parse failure, on JSON without those keys, and on non-object JSON
alike). -/
def extractRecommendationClaim (v : PyVal) : PyVal :=
  if ¬ pyTruthy v then .str fallbackMsg
  else
    let d := convert_tool_response v
    let structuredHit : Option PyVal :=
      match dictGetD d "structured_content" (.dict []) with
      | .dict skvs =>
        let r := dictGetD skvs "recommendation" .none
        if pyTruthy r then some r
        else
          let p := dictGetD skvs "prompt" .none
          if pyTruthy p then some p else Option.none
      | _ => Option.none
    match structuredHit with
    | some r => r
    | Option.none =>
      let contentHit : Option PyVal :=
        match dictGetD d "content" (.list []) with
        | .list xs =>
          xs.findSome? fun item =>
            match item with
            | .dict kvs =>
              match dictGet kvs "text" with
              | some (.str s) =>
                if s ≠ "" then
                  match jsonParse s with
                  | some (.dict pkvs) =>
                    (match dictGet pkvs "recommendation" with
                     | some r => some r
                     | Option.none =>
                       match dictGet pkvs "prompt" with
                       | some p => some p
                       | Option.none => some (.str s))
                  | _ => some (.str s)
                else Option.none
              | _ => Option.none
            | _ => Option.none
        | _ => Option.none
      match contentHit with
      | some r => r
      | Option.none =>
        match dictGet d "message" with
        | some m => m
        | Option.none =>
          match d.find? (fun kv => match kv.2 with | .str _ => true | _ => false) with
          | some kv => kv.2
          | Option.none => .str fallbackMsg

/-- C6 (counterexample): on `{"content": [{"text": "\x7b\x7d"}]}` — whose only
text item is valid JSON with neither a `recommendation` nor a `prompt`
key — the claimed precedence returns the raw text `"\x7b\x7d"`, but the code
SKIPS the item (its `except` covers only `JSONDecodeError`) and, finding
nothing later, returns the fallback string. -/
theorem c6_counterexample :
    extract_recommendation
      (.dict [("content", .list [.dict [("text", .str "\x7b\x7d")]])])
      = .str fallbackMsg ∧
    extractRecommendationClaim
      (.dict [("content", .list [.dict [("text", .str "\x7b\x7d")]])])
      = .str "\x7b\x7d" ∧
    fallbackMsg ≠ "\x7b\x7d" := ⟨rfl, rfl, by decide⟩

/-- C6 (amended): the normalizer is deterministic and total with precedence
(1) truthy structured `recommendation`, (2) first nonempty text item of the
content list — its re-parsed `recommendation` value when the text is a JSON
object carrying that key, the RAW TEXT when the JSON parse fails, but a
parsed JSON object WITHOUT the keys is SKIPPED (falling through to the
later steps) and non-object JSON — an integer or a float alike — raises
`AttributeError`, caught by the outer handler to yield the fallback
immediately — then (3) a `message` field, (4) the first string-typed value
of the dict, (5) the fallback string, also returned on falsy input. -/
theorem c6_amended :
    (∀ (rest d : List (String × PyVal)) (v : PyVal), pyTruthy v = true →
      extract_recommendation
        (.dict (("structured_content", .dict (("recommendation", v) :: rest)) :: d)) = v)
    ∧ (∀ (s : String) (items : List PyVal), jsonParse s = Option.none → s ≠ "" →
      extract_recommendation
        (.dict [("content", .list (.dict [("text", .str s)] :: items))]) = .str s)
    ∧ (∀ (s : String) (r : PyVal) (items : List PyVal),
      jsonParse s = some (.dict [("recommendation", r)]) → s ≠ "" →
      extract_recommendation
        (.dict [("content", .list (.dict [("text", .str s)] :: items))]) = r)
    ∧ (∀ (s : String) (m : PyVal), jsonParse s = some (.dict []) → s ≠ "" →
      extract_recommendation
        (.dict [("content", .list [.dict [("text", .str s)]]), ("message", m)]) = m)
    ∧ (∀ (s : String) (n : Int), jsonParse s = some (.int n) → s ≠ "" →
      extract_recommendation
        (.dict [("content", .list [.dict [("text", .str s)]])]) = .str fallbackMsg)
    ∧ (∀ (s lit : String), jsonParse s = some (.float lit) → s ≠ "" →
      extract_recommendation
        (.dict [("content", .list [.dict [("text", .str s)]])]) = .str fallbackMsg)
    ∧ (∀ (m : PyVal), extract_recommendation (.dict [("message", m)]) = m)
    ∧ (∀ (s : String), extract_recommendation (.dict [("k", .int 3), ("k2", .str s)]) = .str s)
    ∧ extract_recommendation (.dict []) = .str fallbackMsg
    ∧ extract_recommendation .none = .str fallbackMsg := by
  refine ⟨?_, ?_, ?_, ?_, ?_, ?_, ?_, ?_, rfl, rfl⟩
  · intro rest d v hv
    simp [extract_recommendation, extractRecCore, convert_tool_response, dictGetD, dictGet,
          pyIn, pyAt, hv, Except.bind, Except.pure, bind, pure]
    simp [pyTruthy]
  · intro s items h hs
    simp [extract_recommendation, extractRecCore, convert_tool_response, dictGetD, dictGet,
          pyIn, pyAt, extractItems, h, hs, pyTruthy, Except.bind, Except.pure, bind, pure]
  · intro s r items h hs
    simp [extract_recommendation, extractRecCore, convert_tool_response, dictGetD, dictGet,
          pyIn, pyAt, extractItems, h, hs, pyTruthy, Except.bind, Except.pure, bind, pure]
  · intro s m h hs
    simp [extract_recommendation, extractRecCore, convert_tool_response, dictGetD, dictGet,
          pyIn, pyAt, extractItems, h, hs, pyTruthy, Except.bind, Except.pure, bind, pure]
  · intro s n h hs
    simp [extract_recommendation, extractRecCore, convert_tool_response, dictGetD, dictGet,
          pyIn, pyAt, extractItems, h, hs, pyTruthy, Except.bind, Except.pure, bind, pure]
  · intro s lit h hs
    simp [extract_recommendation, extractRecCore, convert_tool_response, dictGetD, dictGet,
          pyIn, pyAt, extractItems, h, hs, pyTruthy, Except.bind, Except.pure, bind, pure]
  · intro m; rfl
  · intro s; rfl

/-- C6 (amended) witness: the six guarded precedence clauses at concrete
inputs — a structured recommendation, a non-JSON text item, a JSON object
with a `recommendation` key, an empty JSON object falling through to
`message`, and integer and float JSON both yielding the fallback. -/
theorem c6_amended_witness :
    extract_recommendation
      (.dict [("structured_content", .dict [("recommendation", .str "See a cardiologist")])])
      = .str "See a cardiologist" ∧
    extract_recommendation (.dict [("content", .list [.dict [("text", .str "hello there")]])])
      = .str "hello there" ∧
    extract_recommendation
      (.dict [("content", .list [.dict [("text", .str "\x7b\"recommendation\": \"Go\"\x7d")]])])
      = .str "Go" ∧
    extract_recommendation
      (.dict [("content", .list [.dict [("text", .str "\x7b\x7d")]]), ("message", .str "hi")])
      = .str "hi" ∧
    extract_recommendation (.dict [("content", .list [.dict [("text", .str "42")]])])
      = .str fallbackMsg ∧
    extract_recommendation (.dict [("content", .list [.dict [("text", .str "1.5")]])])
      = .str fallbackMsg :=
  ⟨c6_amended.1 [] [] (.str "See a cardiologist") rfl,
   c6_amended.2.1 "hello there" [] rfl (by decide),
   c6_amended.2.2.1 "\x7b\"recommendation\": \"Go\"\x7d" (.str "Go") [] rfl (by decide),
   c6_amended.2.2.2.1 "\x7b\x7d" (.str "hi") rfl (by decide),
   c6_amended.2.2.2.2.1 "42" 42 rfl (by decide),
   c6_amended.2.2.2.2.2.1 "1.5" "1.5" rfl (by decide)⟩

/-- C7 (counterexample): a perfectly ordinary new-chat turn (all
collaborators well-behaved) returns a body with NO `status` field at all —
`new_chat` answers only `{chat_id, response}` — refuting "a 'status' field
is always present in the returned body" for "every inbound turn (new-chat
or continue-chat)". -/
theorem c7_counterexample :
    dictGet ((new_chat envFix St.empty "C" "I need a dentist").1) "status" = Option.none ∧
    dictGet ((new_chat envFix St.empty "C" "I need a dentist").1) "response"
      = some (PyVal.str "Cardiologist") := ⟨rfl, rfl⟩

/-- C7 (amended): under the collaborator behaviours the handlers' own
`try/except` actually covers — the LLM raising or any tool raising makes
`run_tool` yield `None`, and `strptime` raising inside the tool is caught
the same way — every turn returns normally with a string `response`; a
continue-chat body always carries `status "in_progress"`, while a new-chat
body carries no `status` field at all.  (The session reads at the top of
`continue_chat` and new-chat's initial cache/store writes sit OUTSIDE the
`try/except`, so a fast-cache or durable-store fault there would propagate
unhandled; the embedding models those stores as total, and the blanket
"any collaborator exception" robustness of the original claim is not
asserted.) -/
theorem c7_amended (env : Env) (st : St) (chat msg newId : String) :
    (∃ s, dictGet ((continue_chat env st chat msg newId).1) "response"
      = some (PyVal.str s)) ∧
    dictGet ((continue_chat env st chat msg newId).1) "status"
      = some (PyVal.str "in_progress") ∧
    (∃ s, dictGet ((new_chat env st chat msg).1) "response" = some (PyVal.str s)) ∧
    dictGet ((new_chat env st chat msg).1) "status" = Option.none := by
  obtain ⟨s2, h2⟩ := new_chat_body env st chat msg
  obtain ⟨s, h⟩ := continue_chat_body env st chat msg newId
  rw [h, h2]
  exact ⟨⟨s, rfl⟩, rfl, ⟨s2, rfl⟩, rfl⟩

/-- C2 (counterexample): the conflict query of `check_availability`
(`bookings_collection.find_one` on professional_name/booking_date/
booking_time) carries NO status clause, so it is not "an exact match on
all three fields with status `confirmed`" as the claim states: a store
holding a single *cancelled* booking at the slot already counts as a
conflict for the code (`has_conflict`), while the claim's checker
(`has_conflict_spec`) reports none. -/
theorem c2_counterexample :
    has_conflict
      [⟨"b1", "c1", "Dr. Strange", "None", "None", "None", "None",
        "2025-10-20", "10:00", "cancelled"⟩]
      "Dr. Strange" "2025-10-20" "10:00" = true ∧
    has_conflict_spec
      [⟨"b1", "c1", "Dr. Strange", "None", "None", "None", "None",
        "2025-10-20", "10:00", "cancelled"⟩]
      "Dr. Strange" "2025-10-20" "10:00" = false := by
  decide

/-- C2 (amended): the conflict checker matches the slot triple exactly but
with no status filter (every booking the system itself writes is
`confirmed`, so the filter's absence is invisible on system-written
stores); it runs only after the availability resolver answers `available`
(when it answers otherwise the tool's response does not depend on the
bookings store at all); a slot just inserted is a conflict for any later
query; a first attempt on a free, available slot answers `confirmed` and
inserts the Booking; an attempt that hits a conflict answers `unavailable`
with the "already booked" message — together: of two sequential attempts on
the same slot the first is confirmed and the second unavailable. -/
theorem c2_amended :
    (∀ (bs : List Booking) (b : Booking),
      has_conflict (bs ++ [b]) b.professional_name b.booking_date b.booking_time = true) ∧
    (∀ (env : Env) (st : St) (chat msg newId : String) (bs2 : List Booking)
       (pn : String) (prof : Professional) (ds ts : String) (dt : Date),
      dictGet (stSession st chat) "selected_professional" = some (PyVal.str pn) → pn ≠ "" →
      env.profs.find? (fun p => p.name == pn) = some prof →
      scanDate msg = some ds → scanTime msg = some ts → parseDateTime ds ts = some dt →
      availabilityCore prof dt ≠ .available →
      (check_availability env st chat msg newId).1
        = (check_availability env { st with bookings := bs2 } chat msg newId).1) ∧
    (∀ (env : Env) (st : St) (chat msg newId : String)
       (pn : String) (prof : Professional) (ds ts : String) (dt : Date),
      dictGet (stSession st chat) "selected_professional" = some (PyVal.str pn) → pn ≠ "" →
      env.profs.find? (fun p => p.name == pn) = some prof →
      scanDate msg = some ds → scanTime msg = some ts → parseDateTime ds ts = some dt →
      availabilityCore prof dt = .available →
      has_conflict st.bookings pn ds ts = false →
      (check_availability env st chat msg newId).1
        = some [("status", PyVal.str "confirmed"),
                ("recommendation", PyVal.str ("✅ Booking confirmed with " ++ pn ++ " on " ++
                  ds ++ " at " ++ ts ++ "."))] ∧
      ∃ b : Booking, ((check_availability env st chat msg newId).2).bookings
          = st.bookings ++ [b] ∧
        b.professional_name = pn ∧ b.booking_date = ds ∧ b.booking_time = ts ∧
        b.status = "confirmed") ∧
    (∀ (env : Env) (st : St) (chat msg newId : String)
       (pn : String) (prof : Professional) (ds ts : String) (dt : Date),
      dictGet (stSession st chat) "selected_professional" = some (PyVal.str pn) → pn ≠ "" →
      env.profs.find? (fun p => p.name == pn) = some prof →
      scanDate msg = some ds → scanTime msg = some ts → parseDateTime ds ts = some dt →
      availabilityCore prof dt = .available →
      has_conflict st.bookings pn ds ts = true →
      (check_availability env st chat msg newId).1
        = some [("status", PyVal.str "unavailable"),
                ("recommendation", PyVal.str (pn ++ " already booked at that time."))]) := by
  refine ⟨?_, ?_, ?_, ?_⟩
  · intro bs b
    simp [has_conflict]
  · intro env st chat msg newId bs2 pn prof ds ts dt h1 h0 h2 h3 h4 h5 h6
    rw [check_availability_unfolded env st chat msg newId pn prof ds ts dt h1 h0 h2 h3 h4 h5,
        check_availability_unfolded env { st with bookings := bs2 } chat msg newId pn prof ds ts dt
          h1 h0 h2 h3 h4 h5]
    cases hav : availabilityCore prof dt with
    | available => exact absurd hav h6
    | suggest nd stime => rfl
    | noSlot => rfl
  · intro env st chat msg newId pn prof ds ts dt h1 h0 h2 h3 h4 h5 hav h7
    rw [check_availability_unfolded env st chat msg newId pn prof ds ts dt h1 h0 h2 h3 h4 h5, hav]
    dsimp only
    rw [h7]
    rw [if_neg (show ¬ (false = true) by decide)]
    exact ⟨rfl, ⟨_, rfl, rfl, rfl, rfl, rfl⟩⟩
  · intro env st chat msg newId pn prof ds ts dt h1 h0 h2 h3 h4 h5 hav h7
    rw [check_availability_unfolded env st chat msg newId pn prof ds ts dt h1 h0 h2 h3 h4 h5, hav]
    dsimp only
    rw [h7]
    rw [if_pos (show (true = true) from rfl)]

set_option maxRecDepth 40000 in
theorem c2_amended_witness :
    (dictGet (stSession
        { St.empty with redis := [("C", [("selected_professional", PyVal.str "Dr. Strange")])] }
        "C") "selected_professional" = some (PyVal.str "Dr. Strange") ∧
     "Dr. Strange" ≠ "" ∧
     envFix.profs.find? (fun p => p.name == "Dr. Strange") = some drStrange ∧
     scanDate "2025-10-20 10:00" = some "2025-10-20" ∧
     scanTime "2025-10-20 10:00" = some "10:00" ∧
     parseDateTime "2025-10-20" "10:00" = some ⟨2025, 10, 20⟩ ∧
     availabilityCore drStrange ⟨2025, 10, 20⟩ = .available ∧
     has_conflict (St.empty).bookings "Dr. Strange" "2025-10-20" "10:00" = false) ∧
    (check_availability envFix
        { St.empty with redis := [("C", [("selected_professional", PyVal.str "Dr. Strange")])] }
        "C" "2025-10-20 10:00" "id-7").1
      = some [("status", PyVal.str "confirmed"),
              ("recommendation", PyVal.str
                "✅ Booking confirmed with Dr. Strange on 2025-10-20 at 10:00.")] :=
  ⟨⟨rfl, by decide, rfl, by decide, by decide, by decide, by decide, by decide⟩,
   (c2_amended.2.2.1 envFix
     { St.empty with redis := [("C", [("selected_professional", PyVal.str "Dr. Strange")])] }
     "C" "2025-10-20 10:00" "id-7" "Dr. Strange" drStrange "2025-10-20" "10:00" ⟨2025, 10, 20⟩
     rfl (by decide) rfl (by decide) (by decide) (by decide) (by decide) (by decide)).1⟩

/-- C8 (counterexample): after a recommendation-stage continue-chat turn in
which the LLM returns the empty string, the FINAL session hash maps
`recommendation` to `""`: `recommend_service` writes the raw reply with a
direct `r.hset` (which is a session-cache write performed during the turn
and bypasses `safe_hset`), and the router's own merge afterwards writes
only the `stage` field, so the empty value persists — refuting "fields
whose value is empty or absent are never written to the fast cache: after
any merge, no key of the cached session hash maps to an empty or null
value". -/
theorem c8_counterexample :
    dictGet (stSession ((continue_chat ⟨fun _ => some "", [], 2025⟩ St.empty
      "C" "I have chest pain" "id-1").2) "C") "recommendation" = some (PyVal.str "") := rfl

/-- C8 (amended): `safe_hset` never writes a `None`-valued field, so a
cache hash with no null values stays null-free across any merge — but
empty strings pass the `is not None` filter, and the MCP tools' direct
`r.hset` writes (e.g. `recommend_service` caching the raw LLM reply)
bypass `safe_hset` entirely, so empty values do reach and persist in the
fast cache. -/
theorem c8_amended (h mapping : List (String × PyVal))
    (hfree : ∀ k v, dictGet h k = some v → isNoneV v = false) :
    ∀ k v, dictGet (safe_hset h mapping) k = some v → isNoneV v = false := by
  intro k v hget
  unfold safe_hset at hget
  split at hget
  · exact hfree k v hget
  · dsimp only at hget
    split at hget
    · exact hfree k v hget
    · rcases dictGet_hashSet_cases _ _ _ _ hget with hmem | hold
      · have hp := List.of_mem_filter hmem
        simpa using hp
      · exact hfree k v hold

theorem c8_amended_witness :
    isNoneV (PyVal.str "") = false :=
  c8_amended [] [("recommendation", PyVal.str "")]
    (fun k v hv => by simp [dictGet] at hv) "recommendation" (PyVal.str "") rfl

/-- C9 (counterexample): `extract_booking_info_from_text` does NOT omit
keys for fields it fails to find — on input `"hello"` (no date, no time),
both `booking_date` and `booking_time` are present, mapped to `None`,
refuting "that key is simply omitted from the returned map". -/
theorem c9_counterexample :
    extract_booking_info_from_text 2025 "hello"
      = [("booking_date", PyVal.none), ("booking_time", PyVal.none)] := rfl

/-- C9 (amended): both extractors are total functions of the input text;
`extract_user_info_from_text` yields a sub-map of
name/age/contact/email in which every *present* key carries a non-null
value (missing fields' keys really are omitted), while
`extract_booking_info_from_text` always returns exactly the two keys
`booking_date`/`booking_time`, using `None` — not omission — to mark a
field that was not found. -/
theorem c9_amended (text : String) (nowYear : Nat) :
    ((extract_user_info_from_text text).map Prod.fst).Sublist
      ["name", "age", "contact", "email"] ∧
    ((extract_user_info_from_text text).all fun kv => ¬ isNoneV kv.2) = true ∧
    (extract_booking_info_from_text nowYear text).map Prod.fst
      = ["booking_date", "booking_time"] := by
  refine ⟨?_, ?_, rfl⟩
  · unfold extract_user_info_from_text
    cases scanName text <;> cases scanAge text <;> cases scanContact text <;>
      cases scanEmail text <;> simp
  · unfold extract_user_info_from_text
    cases scanName text <;> cases scanAge text <;> cases scanContact text <;>
      cases scanEmail text <;> rfl

theorem c10_unknown_conversation_witness :
    aget (St.empty).redis "Z" = Option.none ∧
    aget (St.empty).mongoStage "Z" = Option.none ∧
    (loadStage St.empty "Z" = "recommendation" ∧
     dictGet ((continue_chat envFix St.empty "Z" "I have chest pain" "id-1").1) "status"
       = some (PyVal.str "in_progress") ∧
     loadStage ((continue_chat envFix St.empty "Z" "I have chest pain" "id-1").2) "Z"
       = "awaiting_city") :=
  ⟨rfl, rfl, c10_unknown_conversation envFix St.empty "Z" "I have chest pain" "id-1" rfl rfl⟩

end Booker
